import Mathlib

set_option synthInstance.maxSize 1000

set_option maxRecDepth 8000

/-!
Verification development for the `rust-steam-tradeoffers` repository.

The development shallowly embeds the two core subsystems of the crate:

* the classinfo resolver (`src/api/mod.rs`: `get_asset_classinfos`,
  `get_app_asset_classinfos`, `get_app_asset_classinfos_chunk`) together with
  the disk-cache helpers (`src/classinfo_cache/helpers.rs`);
* the polling engine (`src/manager/polling/poller.rs`: `Poller::do_poll`) and
  the manager entry point (`src/manager/mod.rs`: `TradeOfferManager::do_poll`);
* the paginated inventory fetch loops (`src/api/mod.rs`:
  `get_inventory_old`, `get_inventory_with_classinfos`).

Rust `HashMap`s are modelled as association lists where an insert prepends an
entry and a lookup takes the first matching entry (so a later insert shadows an
earlier one, exactly like `HashMap::insert` under `HashMap::get`).  I/O and the
network are modelled as environment records of oracle functions; machine
integers (`u64`, `i64`, `u32`) are modelled as `Nat`/`Int` (no arithmetic in
the embedded code can overflow: the code only compares ids and timestamps).
-/

/-! ## Association-list maps (model of `HashMap`) -/

/-- First-match lookup in an association list.  Models `HashMap::get` when
inserts prepend entries (the newest entry shadows older ones). -/
def alookup {κ : Type} {α : Type} [DecidableEq κ] : List (κ × α) → κ → Option α
  | [], _ => none
  | (k, v) :: rest, k0 => if k = k0 then some v else alookup rest k0

/-- Keys of an association list. -/
def akeys {κ : Type} {α : Type} (m : List (κ × α)) : List κ :=
  m.map (fun e => e.1)

/-- Collect the hits of a per-key oracle `f` over a key list into an
association list.  This is the shape of every cache tier in
`get_asset_classinfos`: a `filter_map` that keeps the keys `f` can serve,
paired with the served value. -/
def tierMap {κ : Type} {α : Type} (f : κ → Option α) (l : List κ) : List (κ × α) :=
  l.filterMap (fun k => (f k).map (fun v => (k, v)))

/-- First-defined choice between two optional values ("memory first, then the
next tier"). -/
def oalt {α : Type} : Option α → Option α → Option α
  | some v, _ => some v
  | none, b => b

/-! ## Data model of the classinfo subsystem

Mirrors `src/api/mod.rs` and `src/classinfo_cache/helpers.rs`.  A class key is
the triple `(appid, classid, instanceid)` (`ClassInfoClass` in the crate);
within one app a class is identified by `(classid, instanceid)`
(`ClassInfoAppClass`). -/

abbrev AppId := Nat

abbrev ClassId := Nat

abbrev InstanceId := Nat

abbrev ClassInfoClass := AppId × ClassId × Option InstanceId

abbrev ClassInfoAppClass := ClassId × Option InstanceId

/-- Item-type metadata record.  The crate's `ClassInfo` has many descriptive
fields; the embedding keeps a name and the tradability flag, which is all the
embedded code ever inspects. -/
structure ClassInfo where
  market_hash_name : String
  tradable : Bool
deriving DecidableEq, Repr

abbrev ClassInfoMap := List (ClassInfoClass × ClassInfo)

/-- Crate `FileError`: outcome of one disk-cache operation, tagged with the
operation that failed. -/
inductive FileError
  | createError
  | writeError
  | flushError
  | renameError
  | removeError
  | joinError
  | parseError
  | notFound
deriving DecidableEq, Repr

/-- Crate `Error` (the variants the embedded code produces). -/
inductive Error
  | Remote
  | MalformedResponse
  | ResponseUnsuccessful
  | NotLoggedIn
  | MissingClassInfo (appid : AppId) (classid : ClassId) (instanceid : Option InstanceId)
  | PollingBufferFull
  | PollingNotSetup
  | Serde
deriving DecidableEq, Repr

/-- Environment of the resolver: the oracles standing for the disk, the remote
endpoint and serde parsing.

* `diskLoad k` — outcome of `load_classinfo` for key `k` (`none` = the file is
  missing or fails to parse; both are cache misses).
* `remoteRaw k` — the raw string the `GetAssetClassInfo` response carries for
  key `k`, or `none` when the response has no entry for it.  Modelled from the
  spec: the response deserialization (`response_wrappers.rs`) is not under
  `src/`; spec section 6 specifies the remote tier as
  `fetchClassInfoBatch(appId, keys) -> mapping key -> rawClassInfoOrMissing`,
  a per-key mapping, which this oracle renders pointwise.
* `parse s` — `serde_json::from_str::<ClassInfo>(s).ok()`: `none` models the
  "sometimes empty" degenerate entries that fail to parse and are dropped.
* `remoteFail a` — `true` when the HTTP call of a `GetAssetClassInfo` request
  for app `a` itself fails (network or top-level parse error `?`).
* `saveOk k` — whether the disk-cache save of key `k` succeeds
  (`save_classinfo` in `helpers.rs`, summarized to its outcome here). -/
structure ResolveEnv where
  diskLoad : ClassInfoClass → Option ClassInfo
  remoteRaw : ClassInfoClass → Option String
  parse : String → Option ClassInfo
  remoteFail : AppId → Bool
  saveOk : ClassInfoClass → Bool

/-- The parsed remote entry for one key: `none` when the response has no entry
for the key or the entry fails to deserialize (both silently dropped by
`get_app_asset_classinfos_chunk`). -/
def remoteParsed (env : ResolveEnv) (k : ClassInfoClass) : Option ClassInfo :=
  (env.remoteRaw k).bind env.parse

/-- The value the three-tier waterfall can produce for one key: memory first,
then disk, then the parsed remote entry.  `none` means the key is unresolvable
through every tier. -/
def resolve3 (env : ResolveEnv) (cache : ClassInfoMap) (k : ClassInfoClass) : Option ClassInfo :=
  oalt (alookup cache k) (oalt (env.diskLoad k) (remoteParsed env k))

/-- Crate `save_classinfos` (`classinfo_cache/helpers.rs` lines 122-150): one
concurrently dispatched save per fetched entry, collected into a per-key
outcome list that the caller is free to ignore. -/
def save_classinfos (env : ResolveEnv) (appid : AppId)
    (classinfos : List (ClassInfoAppClass × String)) : List (Except FileError Unit) :=
  classinfos.map (fun e =>
    if env.saveOk (appid, e.1.1, e.1.2) then Except.ok () else Except.error FileError.writeError)

/-- Crate `load_classinfos` (`classinfo_cache/helpers.rs` lines 94-120): one
concurrently dispatched load per key; each task yields `Ok (class, classinfo)`
or a per-key error that the caller treats as a miss. -/
def load_classinfos (env : ResolveEnv) (classes : List ClassInfoClass) :
    List (Except FileError (ClassInfoClass × ClassInfo)) :=
  classes.map (fun c =>
    match env.diskLoad c with
    | some ci => Except.ok (c, ci)
    | none => Except.error FileError.notFound)

/-- Crate `get_app_asset_classinfos_chunk` (`api/mod.rs` lines 229-284): fetch
one `GetAssetClassInfo` request for up to 100 classes of one app, persist every
returned raw entry to the disk cache (outcomes discarded), drop entries that
fail to parse, insert the survivors into the memory cache and return them.

Returns `(new memory cache, returned map, keys requested remotely)`; the last
component instruments which keys were put into the HTTP query, so that claims
about "no remote fetch was issued" can be stated. -/
def get_app_asset_classinfos_chunk (env : ResolveEnv) (cache : ClassInfoMap)
    (appid : AppId) (classes : List ClassInfoAppClass) :
    Except Error (ClassInfoMap × ClassInfoMap × List ClassInfoClass) :=
  if env.remoteFail appid then Except.error Error.Remote
  else
    let raw : List (ClassInfoAppClass × String) :=
      classes.filterMap (fun ac => (env.remoteRaw (appid, ac.1, ac.2)).map (fun s => (ac, s)))
    let _saves := save_classinfos env appid raw
    let classinfos : ClassInfoMap :=
      raw.filterMap (fun rs =>
        (env.parse rs.2).map (fun ci => (((appid, rs.1.1, rs.1.2) : ClassInfoClass), ci)))
    Except.ok (classinfos ++ cache, classinfos,
      classes.map (fun ac => ((appid, ac.1, ac.2) : ClassInfoClass)))

/-- Recursion core of `chunksOf`, structurally recursive on a step budget that
is always at least the list length (every step consumes at least one
element). -/
def chunksOfAux {α : Type} (n : Nat) : Nat → List α → List (List α)
  | 0, _ => []
  | _ + 1, [] => []
  | fuel + 1, x :: xs => (x :: xs).take (n + 1) :: chunksOfAux n fuel (xs.drop n)

/-- Split a list into chunks of `n + 1` elements (the last one possibly
shorter).  The `+ 1` keeps the chunk size positive; the source uses
`chunks(100)`, rendered here as `chunksOf 99`. -/
def chunksOf {α : Type} (n : Nat) (l : List α) : List (List α) :=
  chunksOfAux n l.length l

/-- Sequential loop of `get_app_asset_classinfos` over the 100-sized chunks of
one app's classes: the first failing chunk aborts the whole app (`?` in the
source), otherwise the per-chunk maps are collected in order. -/
def runChunks (env : ResolveEnv) (appid : AppId) :
    ClassInfoMap → List (List ClassInfoAppClass) →
    Except Error (ClassInfoMap × List ClassInfoMap × List ClassInfoClass)
  | cache, [] => Except.ok (cache, [], [])
  | cache, c :: cs =>
    match get_app_asset_classinfos_chunk env cache appid c with
    | Except.error e => Except.error e
    | Except.ok (cache1, m, log) =>
      match runChunks env appid cache1 cs with
      | Except.error e => Except.error e
      | Except.ok (cache2, ms, logs) => Except.ok (cache2, m :: ms, log ++ logs)

/-- Crate `get_app_asset_classinfos` (`api/mod.rs` lines 287-301): chunk the
classes of one app by 100 and fetch the chunks sequentially. -/
def get_app_asset_classinfos (env : ResolveEnv) (cache : ClassInfoMap)
    (appid : AppId) (classes : List ClassInfoAppClass) :
    Except Error (ClassInfoMap × List ClassInfoMap × List ClassInfoClass) :=
  runChunks env appid cache (chunksOf 99 classes)

/-- Group the remaining needed keys by app (`api/mod.rs` lines 361-370).  The
source builds a `HashMap<AppId, Vec<ClassInfoAppClass>>` whose iteration order
is unspecified; the embedding iterates apps in order of first appearance, with
each app's classes in their original order (exactly the contents the source
map holds). -/
def groupByApp (l : List ClassInfoClass) : List (AppId × List ClassInfoAppClass) :=
  ((l.map (fun c => c.1)).dedup).map (fun a =>
    (a, (l.filter (fun c => c.1 = a)).map (fun c => (c.2.1, c.2.2))))

/-- Loop of `get_asset_classinfos` over the app groups (`api/mod.rs` lines
372-376): fetch each app's chunks, extending the result map with every
returned chunk map (`map.extend(maps)`); the first failing app aborts the
call. -/
def runApps (env : ResolveEnv) :
    ClassInfoMap → ClassInfoMap → List (AppId × List ClassInfoAppClass) →
    Except Error (ClassInfoMap × ClassInfoMap × List ClassInfoClass)
  | cache, m, [] => Except.ok (cache, m, [])
  | cache, m, (appid, classes) :: rest =>
    match get_app_asset_classinfos env cache appid classes with
    | Except.error e => Except.error e
    | Except.ok (cache1, maps, log) =>
      match runApps env cache1 (maps.foldl (fun acc mm => mm ++ acc) m) rest with
      | Except.error e => Except.error e
      | Except.ok (cache2, m2, logs) => Except.ok (cache2, m2, log ++ logs)

/-- Crate `get_asset_classinfos` (`api/mod.rs` lines 304-379): the three-tier
waterfall.  Empty input short-circuits; otherwise the requested classes are
deduplicated (the source collects them into a `HashSet`), the memory cache is
consulted first, the disk cache next (hits are inserted into memory), and the
remaining keys are fetched remotely per app.

Returns `(memory cache after the call, result map, remotely requested keys)`.
-/
def get_asset_classinfos (env : ResolveEnv) (cache : ClassInfoMap)
    (classes : List ClassInfoClass) :
    Except Error (ClassInfoMap × ClassInfoMap × List ClassInfoClass) :=
  if classes.isEmpty then Except.ok (cache, [], [])
  else
    let classesD := classes.dedup
    let fromMem := tierMap (alookup cache) classesD
    let needed1 := classesD.filter (fun c => (alookup cache c).isNone)
    let diskResults := tierMap env.diskLoad needed1
    let cache1 := diskResults ++ cache
    let map1 := diskResults ++ fromMem
    let needed2 := needed1.filter (fun c => (env.diskLoad c).isNone)
    runApps env cache1 map1 (groupByApp needed2)


/-- Lift a per-app class pair back to a full class key (what the chunk fetch
does when keying its returned map: `(appid, classid, instanceid)`). -/
def liftApp (appid : AppId) (ac : ClassInfoAppClass) : ClassInfoClass :=
  (appid, ac.1, ac.2)

/-- All class keys contained in a list of app groups, in group order (the keys
`runApps` sends to the remote endpoint). -/
def flattenGroups (gs : List (AppId × List ClassInfoAppClass)) : List ClassInfoClass :=
  (gs.map (fun g => g.2.map (liftApp g.1))).flatten

/-! ## Disk cache files (model of `classinfo_cache/helpers.rs`)

`get_classinfo_file_path` derives a filename deterministically from
`(appid, classid, instanceid-or-0)`, with a millisecond-timestamp uniqueness
suffix for temporary files.  The embedding renders a filename as the tuple of
the values printed into it — `(appid, classid, instanceid-or-0, temp suffix)` —
which is injective in exactly the way the printed string is. -/

abbrev CacheFilePath := Nat × Nat × Nat × Option Nat

/-- Crate `get_classinfo_file_path` (`classinfo_cache/helpers.rs` lines
32-57): `appid_classid_instanceid.json` for the final file,
`appid_classid_instanceid.json.timestamp.temp` for a temporary file. -/
def get_classinfo_file_path (class0 : ClassInfoClass) (is_temp : Bool) (timestamp : Nat) :
    CacheFilePath :=
  let instanceid := match class0.2.2 with
    | some instanceid => instanceid
    | none => 0
  (class0.1, class0.2.1, instanceid, if is_temp then some timestamp else none)

/-- State of the cache directory: filename to full current content. -/
structure CacheDir where
  files : List (CacheFilePath × String)
deriving DecidableEq, Repr

def CacheDir.write (fs : CacheDir) (p : CacheFilePath) (content : String) : CacheDir :=
  ⟨(p, content) :: fs.files⟩

def CacheDir.remove (fs : CacheDir) (p : CacheFilePath) : CacheDir :=
  ⟨fs.files.filter (fun e => ¬ e.1 = p)⟩

def CacheDir.read (fs : CacheDir) (p : CacheFilePath) : Option String :=
  alookup fs.files p

/-- Outcomes of the individual file operations `save_classinfo` performs, in
program order: `File::create`, `write_all` (on failure `truncLen` characters
reach the file), `flush`, `rename`, `remove_file`. -/
structure FsEnv where
  createOk : Bool
  writeOk : Bool
  truncLen : Nat
  flushOk : Bool
  renameOk : Bool
  removeOk : Bool

/-- Crate `save_classinfo` (`classinfo_cache/helpers.rs` lines 60-92):

* create the temporary file (`?` on failure);
* `write_all` the serialized content; on failure, `remove_file` the temporary
  file (`?` on the removal itself) and return the write error;
* on write success: `flush` (`?`), then `rename` onto the final path (`?`).

Returns the call outcome together with the directory state afterwards. -/
def save_classinfo (env : FsEnv) (class0 : ClassInfoClass) (classinfo : String)
    (timestamp : Nat) (fs : CacheDir) : Except FileError Unit × CacheDir :=
  let temp_filepath := get_classinfo_file_path class0 true timestamp
  if ¬ env.createOk then (Except.error FileError.createError, fs)
  else
    let fs1 := fs.write temp_filepath ""
    if env.writeOk then
      let fs2 := fs1.write temp_filepath classinfo
      if ¬ env.flushOk then (Except.error FileError.flushError, fs2)
      else
        let filepath := get_classinfo_file_path class0 false timestamp
        if ¬ env.renameOk then (Except.error FileError.renameError, fs2)
        else (Except.ok (), (fs2.remove temp_filepath).write filepath classinfo)
    else
      let fs2 := fs1.write temp_filepath (classinfo.take env.truncLen)
      if env.removeOk then (Except.error FileError.writeError, fs2.remove temp_filepath)
      else (Except.error FileError.removeError, fs2)

/-! ## Poller (model of `manager/polling/poller.rs`)

The `polling/mod.rs` module (`PollData`, `PollType`, `file::save_poll_data`)
and the `response`/`enums` modules are not under `src/`; their pieces are
modelled from the spec where noted.  Timestamps are `Int` seconds. -/

/-- Trade offer states.  Modelled from the spec (section 3): the enum module is
not under `src/`; the spec lists "at least: Active, Accepted, Declined,
Canceled, Countered, CreatedNeedsConfirmation, and others signifying
terminal/glitched conditions" (the remaining variants are Steam's standard
`ETradeOfferState`). -/
inductive TradeOfferState
  | Invalid
  | Active
  | Accepted
  | Countered
  | Expired
  | Canceled
  | Declined
  | InvalidItems
  | CreatedNeedsConfirmation
  | CanceledBySecondFactor
  | InEscrow
deriving DecidableEq, Repr

abbrev TradeOfferId := Nat

/-- Crate `RawTradeOffer` (the fields `do_poll` reads).  The `response` module
is not under `src/`, so two members are modelled from the spec:
`glitched` stands for `is_glitched()` ("a terminal, unusable state defined by
the external collaborator", spec section 4.5 step 5), and `classes` lists the
class keys referenced by the offer's item assets (spec section 3:
"a list of item assets on each side, each asset referencing a ClassKey"). -/
structure RawTradeOffer where
  tradeofferid : TradeOfferId
  trade_offer_state : TradeOfferState
  is_our_offer : Bool
  time_created : Int
  time_updated : Int
  glitched : Bool
  classes : List ClassInfoClass
deriving DecidableEq, Repr

/-- Crate `PollData`.  Modelled from the spec (sections 3 and 4.4): the
`polling/mod.rs` module is not under `src/`.  Fields per section 3:
`lastPollTime`, `lastFullPollTime`, `offersSince`, `stateMap` and a dirty
flag. -/
structure PollData where
  offers_since : Option Int
  last_poll : Option Int
  last_poll_full_update : Option Int
  state_map : List (TradeOfferId × TradeOfferState)
  changed : Bool
deriving DecidableEq, Repr

/-- Modelled from the spec (section 4.4): "All mutators set the dirty flag". -/
def PollData.set_last_poll (d : PollData) (t : Int) : PollData :=
  { d with last_poll := some t, changed := true }

/-- Modelled from the spec (section 4.4): "All mutators set the dirty flag". -/
def PollData.set_last_poll_full_update (d : PollData) (t : Int) : PollData :=
  { d with last_poll_full_update := some t, changed := true }

/-- Modelled from the spec (section 4.4): "All mutators set the dirty flag". -/
def PollData.set_offers_since (d : PollData) (t : Int) : PollData :=
  { d with offers_since := some t, changed := true }

/-- Modelled from the spec (section 4.4): `clearOffers(ids)` removes the given
ids from the state map and sets the dirty flag. -/
def PollData.clear_offers (d : PollData) (ids : List TradeOfferId) : PollData :=
  { d with state_map := d.state_map.filter (fun e => ¬ e.1 ∈ ids), changed := true }

/-- Modelled from the spec (section 4.4): `lastFullPollIsStale(maxAge)` is
"true if never polled, or age >= maxAge". -/
def PollData.last_full_poll_is_stale (d : PollData) (now maxAge : Int) : Bool :=
  match d.last_poll_full_update with
  | none => true
  | some t => maxAge ≤ now - t

/-- Crate `PollType`.  Modelled from the spec (section 4.5): the
`polling/mod.rs` module is not under `src/`.  The spec's selectors are
`Default`, `NewOffersOnly` (`PollType::NewOffers` in `poller.rs`),
`OffersSince(timestamp)` and `FullUpdate`. -/
inductive PollType
  | Default
  | NewOffers
  | OffersSince (t : Int)
  | FullUpdate
deriving DecidableEq, Repr

/-- Whether the selector requests a full update (used on `poller.rs` line 44).
Modelled from the spec: only `FullUpdate` does. -/
def PollType.is_full_update : PollType → Bool
  | PollType.FullUpdate => true
  | _ => false

/-- Whether the selector is an "active only" poll (used on `poller.rs` lines
67, 71 and 143).  Modelled from the spec (section 4.5 step 1): `Default`
carries `activeOnly = true`, as does `NewOffersOnly` (which never clears it),
while `OffersSince` and `FullUpdate` set `activeOnly = false`. -/
def PollType.is_active_only : PollType → Bool
  | PollType.Default => true
  | PollType.NewOffers => true
  | _ => false

/-- Constants of `poller.rs` lines 17-20. -/
def OFFERS_SINCE_BUFFER_SECONDS : Int := 60 * 30

def OFFERS_SINCE_ALL_TIMESTAMP : Int := 1

def STATE_MAP_SIZE_LIMIT : Nat := 2500

def STATE_MAP_SPLIT_AT : Nat := 2000

/-- The `u32::MAX as i64` sentinel of `poller.rs` line 51. -/
def U32_MAX : Int := 4294967295

/-- Poller configuration (`Poller` fields read by `do_poll`):
`cancel_duration` and `poll_full_update_duration`, in seconds. -/
structure PollConfig where
  cancel_duration : Option Int
  poll_full_update_duration : Int

/-- Environment of one poll cycle:

* `now` — `time::get_server_time_now()` (also `chrono::Utc::now()` on line 81;
  both read the same clock within the cycle);
* `fetchResult` — outcome of `get_raw_trade_offers`: the fetched raw offers
  and the optional in-cycle descriptions map;
* `cancelOk id` — whether the `cancel_offer(id)` request issued by the
  auto-cancel step succeeds;
* `renv`, `rcache` — resolver environment and memory cache used when the cycle
  has no in-cycle descriptions and calls `map_raw_trade_offers` (which resolves
  through `get_asset_classinfos`). -/
structure PollEnv where
  now : Int
  fetchResult : Except Error (List RawTradeOffer × Option ClassInfoMap)
  cancelOk : TradeOfferId → Bool
  renv : ResolveEnv
  rcache : ClassInfoMap

/-- The auto-cancel qualification (`poller.rs` lines 85-94): active state,
created by this account, older than the cutoff `now - cancel_duration`. -/
def qualifiesForCancel (now : Int) (dur : Int) (o : RawTradeOffer) : Bool :=
  (o.trade_offer_state = TradeOfferState.Active ∨
    o.trade_offer_state = TradeOfferState.CreatedNeedsConfirmation) ∧
  o.is_our_offer ∧ o.time_created < now - dur

/-- Offers the auto-cancel step issues `cancel_offer` requests for
(`poller.rs` lines 83-96). -/
def cancel_candidates (cfg : PollConfig) (now : Int) (offers : List RawTradeOffer) :
    List RawTradeOffer :=
  match cfg.cancel_duration with
  | some dur => offers.filter (qualifiesForCancel now dur)
  | none => []

/-- Ids whose cancellation request succeeded (`poller.rs` lines 98-101). -/
def cancelled_ids (cfg : PollConfig) (env : PollEnv) (offers : List RawTradeOffer) :
    List TradeOfferId :=
  (cancel_candidates cfg env.now offers).filterMap (fun o =>
    if env.cancelOk o.tradeofferid then some o.tradeofferid else none)

/-- One step of the diff loop (`poller.rs` lines 111-141) over the accumulator
`(offers_since high-water mark, output batch, previous-state map)`. -/
def diffStep (sm : List (TradeOfferId × TradeOfferState))
    (acc : Int × List RawTradeOffer × List (TradeOfferId × TradeOfferState))
    (o : RawTradeOffer) :
    Int × List RawTradeOffer × List (TradeOfferId × TradeOfferState) :=
  if o.glitched then acc
  else
    let hw := if acc.1 < o.time_updated then o.time_updated else acc.1
    match alookup sm o.tradeofferid with
    | some s =>
      if ¬ s = o.trade_offer_state then
        (hw, acc.2.1 ++ [o], acc.2.2 ++ [(o.tradeofferid, s)])
      else (hw, acc.2.1, acc.2.2)
    | none => (hw, acc.2.1 ++ [o], acc.2.2)

/-- The diff loop of `do_poll` (`poller.rs` lines 111-141). -/
def diffOffers (sm : List (TradeOfferId × TradeOfferState)) (hw0 : Int)
    (offers : List RawTradeOffer) :
    Int × List RawTradeOffer × List (TradeOfferId × TradeOfferState) :=
  offers.foldl (diffStep sm) (hw0, [], [])

/-- State-map ids sorted "high to low" (`poller.rs` lines 153-159). -/
def sortedIdsDesc (sm : List (TradeOfferId × TradeOfferState)) : List TradeOfferId :=
  (sm.map (fun e => e.1)).mergeSort (fun a b => decide (b ≤ a))

/-- The trim step of `do_poll` (`poller.rs` lines 151-167): if the state map
exceeds 2500 entries, drop everything after the 2000 highest ids. -/
def trimStateMap (d : PollData) : PollData :=
  if STATE_MAP_SIZE_LIMIT < d.state_map.length then
    d.clear_offers ((sortedIdsDesc d.state_map).drop STATE_MAP_SPLIT_AT)
  else d

/-- Crate `map_raw_trade_offers_with_descriptions` (`api/mod.rs` lines
499-511): keep only offers for which every referenced class key resolves in
the given map (`try_combine_classinfos(&map).ok()`; the offer combination
itself only attaches the classinfos, so the embedding keeps the raw offer). -/
def map_raw_trade_offers_with_descriptions (offers : List RawTradeOffer)
    (m : ClassInfoMap) : List RawTradeOffer :=
  offers.filter (fun o => o.classes.all (fun c => (alookup m c).isSome))

/-- The class keys referenced by a batch of offers, deduplicated
(`api/mod.rs` lines 480-491). -/
def pollClasses (offers : List RawTradeOffer) : List ClassInfoClass :=
  ((offers.map (fun o => o.classes)).flatten).dedup

/-- Crate `map_raw_trade_offers` (`api/mod.rs` lines 476-496): resolve every
referenced class through `get_asset_classinfos`, then filter as in
`map_raw_trade_offers_with_descriptions`. -/
def map_raw_trade_offers (env : PollEnv) (offers : List RawTradeOffer) :
    Except Error (List RawTradeOffer) :=
  match get_asset_classinfos env.renv env.rcache (pollClasses offers) with
  | Except.error e => Except.error e
  | Except.ok (_, m, _) => Except.ok (map_raw_trade_offers_with_descriptions offers m)

/-- The emission loop of `do_poll` (`poller.rs` lines 180-192): for each
mapped offer, take (and remove) its recorded previous state and insert its new
state into the state map.  `HashMap::insert` replaces any existing entry for
the key, so the insertion drops any shadowed entry for the id: the map does
not grow when the id is already present.  Returns the emitted
`(offer, previous state)` pairs and the updated state map. -/
def emitOffers (prev : List (TradeOfferId × TradeOfferState))
    (sm : List (TradeOfferId × TradeOfferState)) :
    List RawTradeOffer →
    List (RawTradeOffer × Option TradeOfferState) × List (TradeOfferId × TradeOfferState)
  | [] => ([], sm)
  | o :: rest =>
    let p := alookup prev o.tradeofferid
    let prev1 := prev.filter (fun e => ¬ e.1 = o.tradeofferid)
    let sm1 := (o.tradeofferid, o.trade_offer_state) ::
      sm.filter (fun e => ¬ e.1 = o.tradeofferid)
    let r := emitOffers prev1 sm1 rest
    ((o, p) :: r.1, r.2)

/-- Result of one poll cycle: the poll data afterwards, the emitted batch (or
the cycle's error), whether `save_poll_data` was invoked, and the ids the
auto-cancel step issued cancellation requests for (instrumentation for claims
about issued cancellations). -/
structure DoPollOutput where
  poll_data : PollData
  result : Except Error (List (RawTradeOffer × Option TradeOfferState))
  saved : Bool
  cancelIssued : List TradeOfferId

/-- Whether this cycle is a full update (`poller.rs` lines 43-60: the flag is
initialized from the selector or a stale `last_poll_full_update` and then
forced off by the `NewOffers` / `OffersSince` branches). -/
def poll_full_update (cfg : PollConfig) (env : PollEnv) (d0 : PollData) (pt : PollType) : Bool :=
  match pt with
  | PollType.NewOffers => false
  | PollType.OffersSince _ => false
  | _ => pt.is_full_update || d0.last_full_poll_is_stale env.now cfg.poll_full_update_duration

/-- The `offers_since` fetch cutoff after the branch chain of `poller.rs`
lines 37-60. -/
def poll_fetch_since (cfg : PollConfig) (env : PollEnv) (d0 : PollData) (pt : PollType) : Int :=
  match pt with
  | PollType.NewOffers => U32_MAX
  | PollType.OffersSince t => t
  | _ =>
    if pt.is_full_update || d0.last_full_poll_is_stale env.now cfg.poll_full_update_duration then
      OFFERS_SINCE_ALL_TIMESTAMP
    else
      match d0.offers_since with
      | some t => t - OFFERS_SINCE_BUFFER_SECONDS
      | none => OFFERS_SINCE_ALL_TIMESTAMP

/-- Poll data after the `last_poll` / `last_poll_full_update` updates
(`poller.rs` lines 71-77). -/
def poll_d2 (cfg : PollConfig) (env : PollEnv) (d0 : PollData) (pt : PollType) : PollData :=
  let d1 := if pt.is_active_only then d0 else d0.set_last_poll env.now
  if poll_full_update cfg env d0 pt then d1.set_last_poll_full_update env.now else d1

/-- The fetched offers after the auto-cancel step marked successfully
cancelled offers as `Canceled` (`poller.rs` lines 111-116). -/
def poll_offers2 (cfg : PollConfig) (env : PollEnv) (offers : List RawTradeOffer) :
    List RawTradeOffer :=
  offers.map (fun o =>
    if o.tradeofferid ∈ cancelled_ids cfg env offers then
      { o with trade_offer_state := TradeOfferState.Canceled }
    else o)

/-- The initial high-water mark of the diff loop (`poller.rs` lines
108-109). -/
def poll_hw0 (cfg : PollConfig) (env : PollEnv) (d0 : PollData) (pt : PollType) : Int :=
  match (poll_d2 cfg env d0 pt).offers_since with
  | some t => t
  | none => poll_fetch_since cfg env d0 pt

/-- The diff loop result of one cycle (`poller.rs` lines 106-141). -/
def poll_diff (cfg : PollConfig) (env : PollEnv) (d0 : PollData) (pt : PollType)
    (offers : List RawTradeOffer) :
    Int × List RawTradeOffer × List (TradeOfferId × TradeOfferState) :=
  diffOffers (poll_d2 cfg env d0 pt).state_map (poll_hw0 cfg env d0 pt)
    (poll_offers2 cfg env offers)

/-- Poll data after the high-water-mark store (`poller.rs` lines 143-145) and
the trim step (lines 151-167). -/
def poll_d4 (cfg : PollConfig) (env : PollEnv) (d0 : PollData) (pt : PollType)
    (offers : List RawTradeOffer) : PollData :=
  trimStateMap
    (if pt.is_active_only then poll_d2 cfg env d0 pt
     else (poll_d2 cfg env d0 pt).set_offers_since (poll_diff cfg env d0 pt offers).1)

/-- Crate `Poller::do_poll` (`manager/polling/poller.rs` lines 33-208), one
reconciliation cycle:

1. compute the fetch cutoff / `active_only` / `full_update` from the selector
   and the stored state (lines 37-60);
2. fetch raw offers (lines 62-69; the outcome is the environment's
   `fetchResult`, and a fetch error aborts the cycle via `?`);
3. update `last_poll` / `last_poll_full_update` (lines 71-77);
4. auto-cancel qualifying offers, marking successfully cancelled ones as
   `Canceled` (lines 80-104 and 111-116);
5. diff against the state map, skipping glitched offers and advancing the
   high-water mark (lines 106-141);
6. store the high-water mark unless active-only (lines 143-145);
7. trim the state map beyond 2500 entries (lines 151-167);
8. attach classinfo descriptions, dropping offers that cannot be resolved
   (lines 169-174);
9. pair emitted offers with previous states and update the state map
   (lines 175-193);
10. save the poll data if anything changed (lines 195-205; the save outcome is
    discarded by `let _ = ...`). -/
def do_poll (cfg : PollConfig) (env : PollEnv) (d0 : PollData) (poll_type : PollType) :
    DoPollOutput :=
  match env.fetchResult with
  | Except.error e => ⟨d0, Except.error e, false, []⟩
  | Except.ok (offers, descriptions) =>
    let d4 := poll_d4 cfg env d0 poll_type offers
    let dr := poll_diff cfg env d0 poll_type offers
    let mappedE : Except Error (List RawTradeOffer) :=
      match descriptions with
      | some m => Except.ok (map_raw_trade_offers_with_descriptions dr.2.1 m)
      | none => map_raw_trade_offers env dr.2.1
    match mappedE with
    | Except.error e =>
      ⟨d4, Except.error e, false,
        (cancel_candidates cfg env.now offers).map (fun o => o.tradeofferid)⟩
    | Except.ok mapped =>
      let er :=
        if mapped.isEmpty then (([] : List (RawTradeOffer × Option TradeOfferState)), d4)
        else
          let e0 := emitOffers dr.2.2 d4.state_map mapped
          (e0.1, { d4 with state_map := e0.2, changed := true })
      let final : PollData × Bool :=
        if er.2.changed then ({ er.2 with changed := false }, true) else (er.2, false)
      ⟨final.1, Except.ok er.1, final.2,
        (cancel_candidates cfg env.now offers).map (fun o => o.tradeofferid)⟩

/-! ## Manager poll requests (model of `manager/mod.rs` lines 439-457) -/

/-- Commands sent to the polling task over the bounded channel. -/
inductive PollAction
  | DoPoll (poll_type : PollType)
deriving DecidableEq, Repr

/-- A bounded mpsc sender endpoint (tokio `mpsc::Sender`): capacity, currently
queued commands, and whether the receiving side is gone.  `try_send` is
non-blocking by construction: it only inspects this state and returns. -/
structure BoundedSender where
  capacity : Nat
  queue : List PollAction
  closed : Bool
deriving DecidableEq, Repr

inductive TrySendError
  | Full
  | Closed
deriving DecidableEq, Repr

/-- Tokio `Sender::try_send` semantics (spec section 5: "non-blocking try send
semantics"; the tokio library itself is an external collaborator). -/
def try_send (ch : BoundedSender) (a : PollAction) : Except TrySendError BoundedSender :=
  if ch.closed then Except.error TrySendError.Closed
  else if ch.capacity ≤ ch.queue.length then Except.error TrySendError.Full
  else Except.ok { ch with queue := ch.queue ++ [a] }

/-- The manager's polling handle: `None` until `start_polling` ran, otherwise
the command sender plus the background task (rendered by whether the task is
alive; `manager_do_poll` never touches the task). -/
structure ManagerPolling where
  polling : Option (BoundedSender × Bool)
deriving DecidableEq, Repr

/-- Crate `TradeOfferManager::do_poll` (`manager/mod.rs` lines 439-457):
`try_send` a `DoPoll` command; a full channel maps to `PollingBufferFull`, a
closed channel to `PollingNotSetup`, no polling setup to `PollingNotSetup`.
Returns the call outcome and the (possibly updated) polling state. -/
def manager_do_poll (m : ManagerPolling) (poll_type : PollType) :
    Except Error Unit × ManagerPolling :=
  match m.polling with
  | some (sender, task) =>
    match try_send sender (PollAction.DoPoll poll_type) with
    | Except.error TrySendError.Full => (Except.error Error.PollingBufferFull, m)
    | Except.error TrySendError.Closed => (Except.error Error.PollingNotSetup, m)
    | Except.ok sender1 => (Except.ok (), ⟨some (sender1, task)⟩)
  | none => (Except.error Error.PollingNotSetup, m)

/-! ## Paginated inventory fetch (model of `api/mod.rs` lines 810-949)

Both inventory endpoints loop over pages; the embedding gives the loop an
explicit step budget (`fuel`), returning `none` while the budget is exhausted
and the loop would still be running.  The claims quantify over the page oracle,
so a `some` result for every sufficiently large budget expresses
termination. -/

/-- One page of `GetInventoryOldResponse` (`more_start` is the next cursor) or
of `GetInventoryResponseIgnoreDescriptions` (`last_assetid` as cursor); the
same shape serves both endpoints. -/
structure InventoryPage where
  success : Bool
  more_items : Bool
  next_cursor : Option Nat
  assets : List Nat
deriving DecidableEq, Repr

/-- Page oracle: the response the endpoint gives for a request at a cursor. -/
structure InventoryEnv where
  page : Option Nat → Except Error InventoryPage

/-- The paging loop shared by `get_inventory_old` (`api/mod.rs` lines 831-857,
cursor field `more_start`) and `get_inventory_with_classinfos` (lines 923-949,
cursor field `last_assetid`): fetch a page; `!success` fails the call; with
`more_items`, a next cursor equal to the one just used fails with
`MalformedResponse` ("we wouldn't want to call this endlessly"), otherwise the
loop continues from the new cursor. -/
def inventory_pages_loop (env : InventoryEnv) :
    Nat → Option Nat → List InventoryPage → Option (Except Error (List InventoryPage))
  | 0, _, _ => none
  | fuel + 1, start, responses =>
    match env.page start with
    | Except.error e => some (Except.error e)
    | Except.ok body =>
      if ¬ body.success then some (Except.error Error.ResponseUnsuccessful)
      else if body.more_items then
        if body.next_cursor = start then some (Except.error Error.MalformedResponse)
        else inventory_pages_loop env fuel body.next_cursor (responses ++ [body])
      else some (Except.ok (responses ++ [body]))

/-- Crate `get_inventory_old`, paging part (`api/mod.rs` lines 825-857):
starts at cursor `None` with no collected responses. -/
def get_inventory_old_pages (env : InventoryEnv) (fuel : Nat) :
    Option (Except Error (List InventoryPage)) :=
  inventory_pages_loop env fuel none []

/-- Crate `get_inventory_with_classinfos`, paging part (`api/mod.rs` lines
917-949): starts at cursor `None` with no collected responses. -/
def get_inventory_with_classinfos_pages (env : InventoryEnv) (fuel : Nat) :
    Option (Except Error (List InventoryPage)) :=
  inventory_pages_loop env fuel none []

/-! ## Concrete instances used by witnesses and counterexamples -/

instance instExceptDecidableEq {ε α : Type} [DecidableEq ε] [DecidableEq α] :
    DecidableEq (Except ε α) := fun x y =>
  match x, y with
  | Except.ok a, Except.ok b => decidable_of_iff (a = b) (by simp)
  | Except.ok _, Except.error _ => isFalse (by simp)
  | Except.error _, Except.ok _ => isFalse (by simp)
  | Except.error e, Except.error f => decidable_of_iff (e = f) (by simp)

/-- Environment in which every tier misses: the disk has no files, the remote
endpoint answers every request with an entry that fails to parse (the
"sometimes empty" degenerate response the source comments on at
`api/mod.rs` lines 268-269), and no HTTP call fails. -/
def envUnresolvable : ResolveEnv :=
  ⟨fun _ => none, fun _ => some "", fun _ => none, fun _ => false, fun _ => true⟩

/-- Environment for witnesses: key `(730, 2, none)` is on disk, key
`(440, 1, none)` is served by the remote endpoint (raw string `"raw"`), no
HTTP call fails, every save succeeds. -/
def envResolveW : ResolveEnv :=
  ⟨fun k => if k = (730, 2, none) then some ⟨"disk item", true⟩ else none,
    fun k => if k = (440, 1, none) then some "raw" else none,
    fun s => if s = "raw" then some ⟨"remote item", true⟩ else none,
    fun _ => false,
    fun _ => true⟩

/-- Memory cache for witnesses: key `(570, 3, some 7)` is already cached. -/
def cacheResolveW : ClassInfoMap :=
  [((570, 3, some 7), ⟨"memory item", false⟩)]

/-- Witness key set: one key per tier plus one unresolvable key. -/
def classesResolveW : List ClassInfoClass :=
  [(570, 3, some 7), (730, 2, none), (440, 1, none), (999, 9, none)]

/-- An oversized state map for the trim claims: 2501 entries with ids
0..2500, all `Active`. -/
def smOversized : List (TradeOfferId × TradeOfferState) :=
  (List.range 2501).map (fun i => (i, TradeOfferState.Active))

/-- A new incoming offer with id 5000, used against `smOversized`. -/
def oNewC5 : RawTradeOffer := ⟨5000, TradeOfferState.Active, false, 0, 10, false, []⟩

def cfgC5 : PollConfig := ⟨none, 1000⟩

def envC5 : PollEnv := ⟨100, Except.ok ([oNewC5], some []), fun _ => false, envUnresolvable, []⟩

def d0C5 : PollData := ⟨none, none, some 100, smOversized, false⟩

/-- A glitched, qualifying (active, ours, old) offer with id 5. -/
def oGlitched : RawTradeOffer := ⟨5, TradeOfferState.Active, true, 0, 10, true, []⟩

def cfgC6 : PollConfig := ⟨some 10, 1000⟩

def envC6 : PollEnv := ⟨100, Except.ok ([oGlitched], some []), fun _ => true, envUnresolvable, []⟩

def d0C6 : PollData := ⟨none, none, some 100, [], false⟩

/-- A qualifying (active, ours, old) non-glitched offer with id 7. -/
def oQualifying : RawTradeOffer := ⟨7, TradeOfferState.Active, true, 0, 10, false, []⟩

def envC6W : PollEnv :=
  ⟨100, Except.ok ([oQualifying], some []), fun _ => true, envUnresolvable, []⟩

/-! ## General lemmas about the map model -/

@[simp]
theorem oalt_some {α : Type} (v : α) (b : Option α) : oalt (some v) b = some v := rfl

@[simp]
theorem oalt_none {α : Type} (b : Option α) : oalt none b = b := rfl

@[simp]
theorem oalt_right_none {α : Type} (a : Option α) : oalt a none = a := by
  cases a <;> rfl

theorem oalt_assoc {α : Type} (a b c : Option α) :
    oalt (oalt a b) c = oalt a (oalt b c) := by
  cases a <;> rfl

theorem oalt_left_comm {α : Type} (a b c : Option α) (h : a = none ∨ b = none) :
    oalt a (oalt b c) = oalt b (oalt a c) := by
  cases a with
  | none => simp
  | some v =>
    cases h with
    | inl h1 => cases h1
    | inr h2 => rw [h2]; simp

theorem alookup_append {κ α : Type} [DecidableEq κ] (m1 m2 : List (κ × α)) (k : κ) :
    alookup (m1 ++ m2) k = oalt (alookup m1 k) (alookup m2 k) := by
  induction m1 with
  | nil => rfl
  | cons e rest ih =>
    obtain ⟨k1, v1⟩ := e
    by_cases h : k1 = k
    · simp [alookup, h]
    · simp [alookup, h, ih]

theorem alookup_eq_none_of_not_mem_akeys {κ α : Type} [DecidableEq κ]
    (m : List (κ × α)) (k : κ) (h : k ∉ akeys m) : alookup m k = none := by
  induction m with
  | nil => rfl
  | cons e rest ih =>
    obtain ⟨k1, v1⟩ := e
    have h1 : ¬ k1 = k := by
      intro hk
      exact h (by simp [akeys, hk])
    have h2 : k ∉ akeys rest := by
      intro hk
      refine h ?_
      simp only [akeys, List.map_cons, List.mem_cons]
      exact Or.inr (by simpa [akeys] using hk)
    simp [alookup, h1, ih h2]

theorem alookup_isSome_iff_mem_akeys {κ α : Type} [DecidableEq κ]
    (m : List (κ × α)) (k : κ) : (alookup m k).isSome = true ↔ k ∈ akeys m := by
  induction m with
  | nil => simp [alookup, akeys]
  | cons e rest ih =>
    obtain ⟨k1, v1⟩ := e
    by_cases h : k1 = k
    · subst h
      simp [alookup, akeys]
    · have hne : ¬ k = k1 := fun hh => h hh.symm
      simp only [alookup, if_neg h, akeys, List.map_cons, List.mem_cons]
      constructor
      · intro hs
        exact Or.inr (by simpa [akeys] using ih.mp hs)
      · intro hor
        cases hor with
        | inl h1 => exact absurd h1 hne
        | inr h2 => exact ih.mpr (by simpa [akeys] using h2)

theorem alookup_tierMap {κ α : Type} [DecidableEq κ]
    (f : κ → Option α) (l : List κ) (hl : l.Nodup) (k : κ) :
    alookup (tierMap f l) k = if k ∈ l then f k else none := by
  induction l with
  | nil => simp [tierMap, alookup]
  | cons a rest ih =>
    have hnd := List.nodup_cons.mp hl
    have ihr := ih hnd.2
    by_cases hk : k = a
    · subst hk
      rw [if_pos (List.mem_cons_self _ _)]
      cases hfa : f k with
      | none =>
        have h0 : alookup (tierMap f rest) k = none := by
          rw [ihr, if_neg hnd.1]
        rw [show tierMap f (k :: rest) = tierMap f rest from by
          simp [tierMap, List.filterMap_cons, hfa]]
        exact h0
      | some v =>
        rw [show tierMap f (k :: rest) = (k, v) :: tierMap f rest from by
          simp [tierMap, List.filterMap_cons, hfa]]
        simp [alookup]
    · cases hfa : f a with
      | none =>
        rw [show tierMap f (a :: rest) = tierMap f rest from by
          simp [tierMap, List.filterMap_cons, hfa]]
        rw [ihr]
        by_cases hr : k ∈ rest
        · rw [if_pos hr, if_pos (List.mem_cons_of_mem _ hr)]
        · rw [if_neg hr, if_neg (by simp [List.mem_cons, hk, hr])]
      | some v =>
        have hne : ¬ a = k := fun hh => hk hh.symm
        rw [show tierMap f (a :: rest) = (a, v) :: tierMap f rest from by
          simp [tierMap, List.filterMap_cons, hfa]]
        rw [show alookup ((a, v) :: tierMap f rest) k = alookup (tierMap f rest) k from by
          simp [alookup, hne]]
        rw [ihr]
        by_cases hr : k ∈ rest
        · rw [if_pos hr, if_pos (List.mem_cons_of_mem _ hr)]
        · rw [if_neg hr, if_neg (by simp [List.mem_cons, hk, hr])]

theorem tierMap_append {κ α : Type} (f : κ → Option α) (l1 l2 : List κ) :
    tierMap f (l1 ++ l2) = tierMap f l1 ++ tierMap f l2 := by
  simp [tierMap, List.filterMap_append]

theorem akeys_tierMap_subset {κ α : Type} (f : κ → Option α) (l : List κ) :
    ∀ k ∈ akeys (tierMap f l), k ∈ l := by
  intro k hk
  simp only [akeys, List.mem_map] at hk
  obtain ⟨e, he, hek⟩ := hk
  simp only [tierMap, List.mem_filterMap] at he
  obtain ⟨k2, hk2, hk2e⟩ := he
  cases hf : f k2 with
  | none =>
    rw [hf] at hk2e
    cases hk2e
  | some v =>
    rw [hf] at hk2e
    have he2 : e = (k2, v) := by
      cases hk2e
      rfl
    rw [he2] at hek
    rw [← hek]
    exact hk2

theorem oalt_isSome_or {α : Type} (a b : Option α) (h : ¬(a.isSome = true ∧ b.isSome = true)) :
    a = none ∨ b = none := by
  cases a with
  | none => exact Or.inl rfl
  | some v =>
    cases b with
    | none => exact Or.inr rfl
    | some w => exact absurd ⟨rfl, rfl⟩ h

theorem akeys_append {κ α : Type} (m1 m2 : List (κ × α)) :
    akeys (m1 ++ m2) = akeys m1 ++ akeys m2 := by
  simp [akeys]

theorem akeys_tierMap {κ α : Type} (f : κ → Option α) (l : List κ) :
    akeys (tierMap f l) = l.filter (fun k => (f k).isSome) := by
  induction l with
  | nil => rfl
  | cons a rest ih =>
    cases hfa : f a with
    | none => simp [akeys, tierMap, List.filterMap_cons, hfa, List.filter_cons] at ih ⊢; exact ih
    | some v => simp [akeys, tierMap, List.filterMap_cons, hfa, List.filter_cons] at ih ⊢; exact ih

theorem tierMap_flatten {κ α : Type} (f : κ → Option α) (ls : List (List κ)) :
    (ls.map (tierMap f)).flatten = tierMap f ls.flatten := by
  induction ls with
  | nil => rfl
  | cons l rest ih => simp [List.flatten_cons, ih, tierMap_append]

theorem chunksOfAux_flatten {α : Type} (n : Nat) :
    ∀ (fuel : Nat) (l : List α), l.length ≤ fuel → (chunksOfAux n fuel l).flatten = l := by
  intro fuel
  induction fuel with
  | zero =>
    intro l hl
    rw [List.length_eq_zero.mp (Nat.le_zero.mp hl)]
    rfl
  | succ fuel ih =>
    intro l hl
    match l with
    | [] => rfl
    | x :: xs =>
      rw [chunksOfAux]
      simp only [List.flatten_cons]
      rw [ih (xs.drop n) (by simp only [List.length_drop]; simp at hl; omega)]
      rw [List.take_succ_cons, List.cons_append, List.take_append_drop]

theorem chunksOf_flatten {α : Type} (n : Nat) (l : List α) : (chunksOf n l).flatten = l :=
  chunksOfAux_flatten n l.length l (Nat.le_refl _)

/-! ## Characterization of the classinfo resolver -/

theorem get_app_asset_classinfos_chunk_eq (env : ResolveEnv) (cache : ClassInfoMap)
    (appid : AppId) (classes : List ClassInfoAppClass)
    (hfail : env.remoteFail appid = false) :
    get_app_asset_classinfos_chunk env cache appid classes =
      Except.ok (tierMap (remoteParsed env) (classes.map (liftApp appid)) ++ cache,
        tierMap (remoteParsed env) (classes.map (liftApp appid)),
        classes.map (liftApp appid)) := by
  have hnf : ¬ (env.remoteFail appid = true) := by simp [hfail]
  have hmap :
      (classes.filterMap (fun ac =>
          (env.remoteRaw (appid, ac.1, ac.2)).map (fun s => (ac, s)))).filterMap
        (fun rs => (env.parse rs.2).map
          (fun ci => (((appid, rs.1.1, rs.1.2) : ClassInfoClass), ci))) =
      tierMap (remoteParsed env) (classes.map (liftApp appid)) := by
    rw [List.filterMap_filterMap]
    unfold tierMap
    rw [List.filterMap_map]
    apply List.filterMap_congr
    intro ac _
    cases hr : env.remoteRaw (appid, ac.1, ac.2) with
    | none => simp [Function.comp, liftApp, remoteParsed, hr]
    | some s =>
      cases hp : env.parse s with
      | none => simp [Function.comp, liftApp, remoteParsed, hr, hp]
      | some ci => simp [Function.comp, liftApp, remoteParsed, hr, hp]
  simp only [get_app_asset_classinfos_chunk, hnf, if_false]
  rw [hmap]
  simp [liftApp]

theorem mem_of_alookup_tierMap_isSome {κ α : Type} [DecidableEq κ]
    (f : κ → Option α) (l : List κ) (k : κ)
    (h : (alookup (tierMap f l) k).isSome = true) : k ∈ l := by
  exact akeys_tierMap_subset f l k ((alookup_isSome_iff_mem_akeys _ _).mp h)

theorem runChunks_eq (env : ResolveEnv) (appid : AppId)
    (hfail : env.remoteFail appid = false) :
    ∀ (css : List (List ClassInfoAppClass)) (cache : ClassInfoMap),
    ((css.flatten).map (liftApp appid)).Nodup →
    ∃ cacheF,
      runChunks env appid cache css =
        Except.ok (cacheF,
          css.map (fun c => tierMap (remoteParsed env) (c.map (liftApp appid))),
          (css.flatten).map (liftApp appid)) ∧
      ∀ k, alookup cacheF k =
        oalt (alookup (tierMap (remoteParsed env) ((css.flatten).map (liftApp appid))) k)
          (alookup cache k) := by
  intro css
  induction css with
  | nil =>
    intro cache _
    refine ⟨cache, rfl, ?_⟩
    intro k
    simp [tierMap, alookup]
  | cons c cs ih =>
    intro cache hnd
    have hsplit : ((c :: cs).flatten).map (liftApp appid) =
        c.map (liftApp appid) ++ (cs.flatten).map (liftApp appid) := by
      simp [List.flatten_cons]
    rw [hsplit] at hnd
    have hndc := (List.nodup_append.mp hnd).1
    have hndr := (List.nodup_append.mp hnd).2.1
    have hdisj := (List.nodup_append.mp hnd).2.2
    obtain ⟨cacheF, heq, hlook⟩ := ih (tierMap (remoteParsed env) (c.map (liftApp appid)) ++ cache) hndr
    refine ⟨cacheF, ?_, ?_⟩
    · show runChunks env appid cache (c :: cs) = _
      rw [runChunks, get_app_asset_classinfos_chunk_eq env cache appid c hfail]
      dsimp only
      rw [heq]
      simp [hsplit]
    · intro k
      rw [hlook k, hsplit, tierMap_append, alookup_append, alookup_append, oalt_assoc]
      apply oalt_left_comm
      apply oalt_isSome_or
      intro hboth
      have h1 : k ∈ (cs.flatten).map (liftApp appid) :=
        mem_of_alookup_tierMap_isSome _ _ _ hboth.1
      have h2 : k ∈ c.map (liftApp appid) :=
        mem_of_alookup_tierMap_isSome _ _ _ hboth.2
      exact hdisj h2 h1

theorem foldl_prepend_lookup {κ α : Type} [DecidableEq κ] :
    ∀ (maps : List (List (κ × α))) (m : List (κ × α)) (k : κ),
    (akeys maps.flatten).Nodup →
    alookup (maps.foldl (fun acc mm => mm ++ acc) m) k =
      oalt (alookup maps.flatten k) (alookup m k) := by
  intro maps
  induction maps with
  | nil =>
    intro m k _
    simp [alookup]
  | cons mm rest ih =>
    intro m k hnd
    rw [List.flatten_cons, akeys_append] at hnd
    have hndr := (List.nodup_append.mp hnd).2.1
    have hdisj := (List.nodup_append.mp hnd).2.2
    have step : (mm :: rest).foldl (fun acc mm2 => mm2 ++ acc) m =
        rest.foldl (fun acc mm2 => mm2 ++ acc) (mm ++ m) := rfl
    rw [step, ih (mm ++ m) k hndr, List.flatten_cons, alookup_append, alookup_append, oalt_assoc]
    apply oalt_left_comm
    apply oalt_isSome_or
    intro hboth
    have h1 : k ∈ akeys rest.flatten := (alookup_isSome_iff_mem_akeys _ _).mp hboth.1
    have h2 : k ∈ akeys mm := (alookup_isSome_iff_mem_akeys _ _).mp hboth.2
    exact hdisj h2 h1

theorem flattenGroups_cons (g : AppId × List ClassInfoAppClass)
    (gs : List (AppId × List ClassInfoAppClass)) :
    flattenGroups (g :: gs) = g.2.map (liftApp g.1) ++ flattenGroups gs := by
  simp [flattenGroups]

theorem groupByApp_lifted_eq_filter (l : List ClassInfoClass) (a : AppId) :
    ((l.filter (fun c => c.1 = a)).map (fun c => (c.2.1, c.2.2))).map (liftApp a) =
      l.filter (fun c => c.1 = a) := by
  rw [List.map_map]
  have : ∀ c ∈ l.filter (fun c => c.1 = a), (liftApp a ∘ fun c => (c.2.1, c.2.2)) c = id c := by
    intro c hc
    have hca : c.1 = a := by
      have := (List.mem_filter.mp hc).2
      simpa using this
    obtain ⟨c1, c2, c3⟩ := c
    simp only [Function.comp, liftApp, id]
    simp at hca
    rw [hca]
  rw [List.map_congr_left this, List.map_id]

theorem flattenGroups_groupByApp (l : List ClassInfoClass) :
    flattenGroups (groupByApp l) =
      (((l.map (fun c => c.1)).dedup).map (fun a => l.filter (fun c => c.1 = a))).flatten := by
  unfold flattenGroups groupByApp
  rw [List.map_map]
  congr 1
  apply List.map_congr_left
  intro a _
  exact groupByApp_lifted_eq_filter l a

theorem mem_flattenGroups_groupByApp (l : List ClassInfoClass) (k : ClassInfoClass) :
    k ∈ flattenGroups (groupByApp l) ↔ k ∈ l := by
  rw [flattenGroups_groupByApp]
  rw [List.mem_flatten]
  constructor
  · rintro ⟨g, hg, hkg⟩
    obtain ⟨a, _, rfl⟩ := List.mem_map.mp hg
    exact (List.mem_filter.mp hkg).1
  · intro hk
    refine ⟨l.filter (fun c => c.1 = k.1), ?_, ?_⟩
    · apply List.mem_map.mpr
      refine ⟨k.1, ?_, rfl⟩
      rw [List.mem_dedup]
      exact List.mem_map.mpr ⟨k, hk, rfl⟩
    · rw [List.mem_filter]
      exact ⟨hk, by simp⟩

theorem nodup_flattenGroups_groupByApp (l : List ClassInfoClass) (hl : l.Nodup) :
    (flattenGroups (groupByApp l)).Nodup := by
  rw [flattenGroups_groupByApp]
  rw [List.nodup_flatten]
  constructor
  · intro g hg
    obtain ⟨a, _, rfl⟩ := List.mem_map.mp hg
    exact List.Nodup.filter _ hl
  · apply List.Pairwise.map (fun a => l.filter (fun c => c.1 = a))
      (fun a b hab => ?_) ((l.map (fun c => c.1)).nodup_dedup)
    intro k hka hkb
    have h1 : k.1 = a := by simpa using (List.mem_filter.mp hka).2
    have h2 : k.1 = b := by simpa using (List.mem_filter.mp hkb).2
    exact hab (h1 ▸ h2)

theorem runApps_eq (env : ResolveEnv) :
    ∀ (gs : List (AppId × List ClassInfoAppClass)) (cache m : ClassInfoMap),
    (∀ g ∈ gs, env.remoteFail g.1 = false) →
    (flattenGroups gs).Nodup →
    ∃ cacheF mF,
      runApps env cache m gs = Except.ok (cacheF, mF, flattenGroups gs) ∧
      (∀ k, alookup mF k =
        oalt (alookup (tierMap (remoteParsed env) (flattenGroups gs)) k) (alookup m k)) ∧
      (∀ k, alookup cacheF k =
        oalt (alookup (tierMap (remoteParsed env) (flattenGroups gs)) k) (alookup cache k)) := by
  intro gs
  induction gs with
  | nil =>
    intro cache m _ _
    refine ⟨cache, m, rfl, ?_, ?_⟩ <;> intro k <;> simp [flattenGroups, tierMap, alookup]
  | cons g rest ih =>
    intro cache m hfail hnd
    obtain ⟨a, cs⟩ := g
    have hfa : env.remoteFail a = false := hfail (a, cs) (List.mem_cons_self _ _)
    rw [flattenGroups_cons] at hnd
    have hndc := (List.nodup_append.mp hnd).1
    have hndr := (List.nodup_append.mp hnd).2.1
    have hdisj := (List.nodup_append.mp hnd).2.2
    -- the per-app fetch
    have hchunks : ((chunksOf 99 cs).flatten).map (liftApp a) = cs.map (liftApp a) := by
      rw [chunksOf_flatten]
    obtain ⟨cacheA, heqA, hlookA⟩ :=
      runChunks_eq env a hfa (chunksOf 99 cs) cache (by rw [hchunks]; exact hndc)
    rw [hchunks] at heqA hlookA
    -- the extended result map
    have hmapsflat :
        (((chunksOf 99 cs).map
            (fun c => tierMap (remoteParsed env) (c.map (liftApp a)))).flatten) =
          tierMap (remoteParsed env) (cs.map (liftApp a)) := by
      have h1 : (chunksOf 99 cs).map
          (fun c => tierMap (remoteParsed env) (c.map (liftApp a))) =
          ((chunksOf 99 cs).map (List.map (liftApp a))).map (tierMap (remoteParsed env)) := by
        rw [List.map_map]
        rfl
      rw [h1, tierMap_flatten]
      congr 1
      rw [← List.map_flatten, chunksOf_flatten]
    have hfold : ∀ k,
        alookup (((chunksOf 99 cs).map
            (fun c => tierMap (remoteParsed env) (c.map (liftApp a)))).foldl
          (fun acc mm => mm ++ acc) m) k =
        oalt (alookup (tierMap (remoteParsed env) (cs.map (liftApp a))) k) (alookup m k) := by
      intro k
      rw [foldl_prepend_lookup _ m k, hmapsflat]
      rw [hmapsflat, akeys_tierMap]
      exact List.Nodup.filter _ hndc
    obtain ⟨cacheF, mF, heqR, hlookM, hlookC⟩ :=
      ih cacheA (((chunksOf 99 cs).map
          (fun c => tierMap (remoteParsed env) (c.map (liftApp a)))).foldl
        (fun acc mm => mm ++ acc) m)
        (fun g hg => hfail g (List.mem_cons_of_mem _ hg)) hndr
    refine ⟨cacheF, mF, ?_, ?_, ?_⟩
    · show runApps env cache m ((a, cs) :: rest) = _
      rw [runApps]
      rw [show get_app_asset_classinfos env cache a cs =
        runChunks env a cache (chunksOf 99 cs) from rfl]
      rw [heqA]
      dsimp only
      rw [heqR]
      rw [flattenGroups_cons]
    · intro k
      rw [hlookM k, hfold k, flattenGroups_cons, tierMap_append, alookup_append, oalt_assoc]
      apply oalt_left_comm
      apply oalt_isSome_or
      intro hboth
      have h1 : k ∈ flattenGroups rest := mem_of_alookup_tierMap_isSome _ _ _ hboth.1
      have h2 : k ∈ cs.map (liftApp a) := mem_of_alookup_tierMap_isSome _ _ _ hboth.2
      exact hdisj h2 h1
    · intro k
      rw [hlookC k, hlookA k, flattenGroups_cons, tierMap_append, alookup_append, oalt_assoc]
      apply oalt_left_comm
      apply oalt_isSome_or
      intro hboth
      have h1 : k ∈ flattenGroups rest := mem_of_alookup_tierMap_isSome _ _ _ hboth.1
      have h2 : k ∈ cs.map (liftApp a) := mem_of_alookup_tierMap_isSome _ _ _ hboth.2
      exact hdisj h2 h1

theorem get_asset_classinfos_spec (env : ResolveEnv) (cache : ClassInfoMap)
    (classes : List ClassInfoClass) (hfail : ∀ a, env.remoteFail a = false) :
    ∃ cacheF mF log,
      get_asset_classinfos env cache classes = Except.ok (cacheF, mF, log) ∧
      (∀ k, alookup mF k = if k ∈ classes then resolve3 env cache k else none) ∧
      (∀ k, alookup cacheF k =
        if k ∈ classes then resolve3 env cache k else alookup cache k) ∧
      (∀ k, k ∈ log ↔ (k ∈ classes ∧ alookup cache k = none ∧ env.diskLoad k = none)) := by
  by_cases hcl : classes.isEmpty
  · have hz : classes = [] := List.isEmpty_iff.mp hcl
    subst hz
    refine ⟨cache, [], [], ?_, ?_, ?_, ?_⟩
    · rfl
    · intro k
      simp [alookup]
    · intro k
      simp
    · intro k
      simp
  · have hD : classes.dedup.Nodup := List.nodup_dedup classes
    have hmemD : ∀ k, k ∈ classes.dedup ↔ k ∈ classes := fun k => List.mem_dedup
    set D := classes.dedup with hDdef
    set n1 := D.filter (fun c => (alookup cache c).isNone) with hn1def
    set n2 := n1.filter (fun c => (env.diskLoad c).isNone) with hn2def
    have hn1 : n1.Nodup := List.Nodup.filter _ hD
    have hn2 : n2.Nodup := List.Nodup.filter _ hn1
    have hmem1 : ∀ k, k ∈ n1 ↔ (k ∈ classes ∧ alookup cache k = none) := by
      intro k
      rw [hn1def, List.mem_filter, hmemD k]
      simp [Option.isNone_iff_eq_none]
    have hmem2 : ∀ k, k ∈ n2 ↔ (k ∈ classes ∧ alookup cache k = none ∧ env.diskLoad k = none) := by
      intro k
      rw [hn2def, List.mem_filter, hmem1 k]
      simp [Option.isNone_iff_eq_none, and_assoc]
    obtain ⟨cacheF, mF, heqR, hlookM, hlookC⟩ :=
      runApps_eq env (groupByApp n2) (tierMap env.diskLoad n1 ++ cache)
        (tierMap env.diskLoad n1 ++ tierMap (alookup cache) D)
        (fun g _ => hfail g.1) (nodup_flattenGroups_groupByApp n2 hn2)
    have hunfold : get_asset_classinfos env cache classes =
        runApps env (tierMap env.diskLoad n1 ++ cache)
          (tierMap env.diskLoad n1 ++ tierMap (alookup cache) D) (groupByApp n2) := by
      unfold get_asset_classinfos
      rw [if_neg (by simpa using hcl)]
    have hRem : ∀ k, alookup (tierMap (remoteParsed env) (flattenGroups (groupByApp n2))) k =
        if k ∈ n2 then remoteParsed env k else none := by
      intro k
      rw [alookup_tierMap _ _ (nodup_flattenGroups_groupByApp n2 hn2) k]
      by_cases h2 : k ∈ n2
      · rw [if_pos ((mem_flattenGroups_groupByApp n2 k).mpr h2), if_pos h2]
      · rw [if_neg (fun hc => h2 ((mem_flattenGroups_groupByApp n2 k).mp hc)), if_neg h2]
    have hDiskL : ∀ k, alookup (tierMap env.diskLoad n1) k =
        if k ∈ n1 then env.diskLoad k else none := by
      intro k
      rw [alookup_tierMap _ _ hn1 k]
      exact ite_congr rfl (fun _ => rfl) (fun _ => rfl)
    have hMemL : ∀ k, alookup (tierMap (alookup cache) D) k =
        if k ∈ D then alookup cache k else none := by
      intro k
      rw [alookup_tierMap _ _ hD k]
      exact ite_congr rfl (fun _ => rfl) (fun _ => rfl)
    refine ⟨cacheF, mF, flattenGroups (groupByApp n2), ?_, ?_, ?_, ?_⟩
    · rw [hunfold, heqR]
    · intro k
      rw [hlookM k, hRem k, alookup_append, hDiskL k, hMemL k]
      by_cases hk : k ∈ classes
      · have hkD : k ∈ D := (hmemD k).mpr hk
        cases hc : alookup cache k with
        | some v =>
          have h1 : ¬ k ∈ n1 := fun h => by
            have hx := (hmem1 k).mp h
            rw [hc] at hx
            exact Option.noConfusion hx.2
          have h2 : ¬ k ∈ n2 := fun h => by
            have hx := (hmem2 k).mp h
            rw [hc] at hx
            exact Option.noConfusion hx.2.1
          rw [if_neg h2, if_neg h1, if_pos hkD, if_pos hk]
          simp [resolve3, hc]
        | none =>
          cases hd : env.diskLoad k with
          | some d =>
            have h1 : k ∈ n1 := (hmem1 k).mpr ⟨hk, hc⟩
            have h2 : ¬ k ∈ n2 := fun h => by
              have hx := (hmem2 k).mp h
              rw [hd] at hx
              exact Option.noConfusion hx.2.2
            rw [if_neg h2, if_pos h1, if_pos hkD, if_pos hk]
            simp [resolve3, hc, hd]
          | none =>
            have h1 : k ∈ n1 := (hmem1 k).mpr ⟨hk, hc⟩
            have h2 : k ∈ n2 := (hmem2 k).mpr ⟨hk, hc, hd⟩
            rw [if_pos h2, if_pos h1, if_pos hkD, if_pos hk]
            simp [resolve3, hc, hd]
      · have hkD : ¬ k ∈ D := fun h => hk ((hmemD k).mp h)
        have h1 : ¬ k ∈ n1 := fun h => hk ((hmem1 k).mp h).1
        have h2 : ¬ k ∈ n2 := fun h => hk ((hmem2 k).mp h).1
        rw [if_neg h2, if_neg h1, if_neg hkD, if_neg hk]
        simp
    · intro k
      rw [hlookC k, hRem k, alookup_append, hDiskL k]
      by_cases hk : k ∈ classes
      · cases hc : alookup cache k with
        | some v =>
          have h1 : ¬ k ∈ n1 := fun h => by
            have hx := (hmem1 k).mp h
            rw [hc] at hx
            exact Option.noConfusion hx.2
          have h2 : ¬ k ∈ n2 := fun h => by
            have hx := (hmem2 k).mp h
            rw [hc] at hx
            exact Option.noConfusion hx.2.1
          rw [if_neg h2, if_neg h1, if_pos hk]
          simp [resolve3, hc]
        | none =>
          cases hd : env.diskLoad k with
          | some d =>
            have h1 : k ∈ n1 := (hmem1 k).mpr ⟨hk, hc⟩
            have h2 : ¬ k ∈ n2 := fun h => by
              have hx := (hmem2 k).mp h
              rw [hd] at hx
              exact Option.noConfusion hx.2.2
            rw [if_neg h2, if_pos h1, if_pos hk]
            simp [resolve3, hc, hd]
          | none =>
            have h1 : k ∈ n1 := (hmem1 k).mpr ⟨hk, hc⟩
            have h2 : k ∈ n2 := (hmem2 k).mpr ⟨hk, hc, hd⟩
            rw [if_pos h2, if_pos h1, if_pos hk]
            simp [resolve3, hc, hd]
      · have h1 : ¬ k ∈ n1 := fun h => hk ((hmem1 k).mp h).1
        have h2 : ¬ k ∈ n2 := fun h => hk ((hmem2 k).mp h).1
        rw [if_neg h2, if_neg h1, if_neg hk]
        simp
    · intro k
      rw [mem_flattenGroups_groupByApp]
      exact hmem2 k

theorem oalt_eq_none_iff {α : Type} (a b : Option α) :
    oalt a b = none ↔ (a = none ∧ b = none) := by
  cases a <;> simp

theorem oalt_idem {α : Type} (a : Option α) : oalt a a = a := by
  cases a <;> rfl

theorem resolve3_stable (env : ResolveEnv) (cache c1 : ClassInfoMap) (k : ClassInfoClass)
    (h : alookup c1 k = resolve3 env cache k) :
    resolve3 env c1 k = resolve3 env cache k := by
  unfold resolve3 at h ⊢
  rw [h, oalt_assoc, oalt_idem]

/-! ## Claim C1 -/

/-- Claim C1, amended.  For every class-key set, when no remote HTTP call
itself fails, `get_asset_classinfos` succeeds and its result map holds exactly
the requested keys that are resolvable through memory, disk or the parsed
remote response; unresolvable keys are simply absent.  (The original claim's
exception — that the call fails when every key is unresolvable — is refuted by
`c1_counterexample`.) -/
theorem c1_resolver_returns_resolvable_subset (env : ResolveEnv) (cache : ClassInfoMap)
    (classes : List ClassInfoClass) (hfail : ∀ a, env.remoteFail a = false) :
    ∃ cacheF mF log,
      get_asset_classinfos env cache classes = Except.ok (cacheF, mF, log) ∧
      ∀ k, ((alookup mF k).isSome = true ↔
        (k ∈ classes ∧ (resolve3 env cache k).isSome = true)) := by
  obtain ⟨cacheF, mF, log, heq, hm, _, _⟩ := get_asset_classinfos_spec env cache classes hfail
  refine ⟨cacheF, mF, log, heq, ?_⟩
  intro k
  rw [hm k]
  by_cases hk : k ∈ classes <;> simp [hk]

/-- Witness for `c1_resolver_returns_resolvable_subset` at a concrete
environment with one key per tier and one unresolvable key. -/
theorem c1_witness :
    ∃ cacheF mF log,
      get_asset_classinfos envResolveW cacheResolveW classesResolveW =
        Except.ok (cacheF, mF, log) ∧
      ∀ k, ((alookup mF k).isSome = true ↔
        (k ∈ classesResolveW ∧ (resolve3 envResolveW cacheResolveW k).isSome = true)) :=
  c1_resolver_returns_resolvable_subset envResolveW cacheResolveW classesResolveW
    (fun _ => rfl)

/-- Counterexample to claim C1 as stated: for the non-empty key set
`[(440, 1, none)]` in which every key is unresolvable through every tier
(`resolve3 = none`), the call does not fail — it returns `Ok` with an empty
mapping, because remote entries that are missing or fail to parse are silently
dropped (`api/mod.rs` lines 266-279) and no error path remains. -/
theorem c1_counterexample :
    resolve3 envUnresolvable [] (440, 1, none) = none ∧
    get_asset_classinfos envUnresolvable [] [(440, 1, none)] =
      Except.ok ([], [], [(440, 1, none)]) :=
  ⟨rfl, rfl⟩

/-! ## Claim C7 -/

/-- Claim C7.  Calling `get_asset_classinfos` twice in sequence with the same
key set (no remote HTTP failure) yields extensionally identical output maps,
and every key the second call requests remotely (`log2`) was not in the memory
cache produced by the first call — no remote fetch is issued for any key the
first call cached. -/
theorem c7_resolver_idempotent (env : ResolveEnv) (cache : ClassInfoMap)
    (classes : List ClassInfoClass) (hfail : ∀ a, env.remoteFail a = false) :
    ∃ cache1 m1 log1 cache2 m2 log2,
      get_asset_classinfos env cache classes = Except.ok (cache1, m1, log1) ∧
      get_asset_classinfos env cache1 classes = Except.ok (cache2, m2, log2) ∧
      (∀ k, alookup m2 k = alookup m1 k) ∧
      (∀ k, k ∈ log2 → alookup cache1 k = none) := by
  obtain ⟨c1, m1, l1, he1, hm1, hc1, _⟩ := get_asset_classinfos_spec env cache classes hfail
  obtain ⟨c2, m2, l2, he2, hm2, _, hl2⟩ := get_asset_classinfos_spec env c1 classes hfail
  refine ⟨c1, m1, l1, c2, m2, l2, he1, he2, ?_, ?_⟩
  · intro k
    rw [hm1 k, hm2 k]
    by_cases hk : k ∈ classes
    · rw [if_pos hk, if_pos hk]
      have hck := hc1 k
      rw [if_pos hk] at hck
      exact resolve3_stable env cache c1 k hck
    · rw [if_neg hk, if_neg hk]
  · intro k hk2
    exact ((hl2 k).mp hk2).2.1

/-- Witness for `c7_resolver_idempotent` at the concrete witness
environment. -/
theorem c7_witness :
    ∃ cache1 m1 log1 cache2 m2 log2,
      get_asset_classinfos envResolveW cacheResolveW classesResolveW =
        Except.ok (cache1, m1, log1) ∧
      get_asset_classinfos envResolveW cache1 classesResolveW =
        Except.ok (cache2, m2, log2) ∧
      (∀ k, alookup m2 k = alookup m1 k) ∧
      (∀ k, k ∈ log2 → alookup cache1 k = none) :=
  c7_resolver_idempotent envResolveW cacheResolveW classesResolveW (fun _ => rfl)

/-! ## Claim C8 -/

/-- Claim C8.  `get_app_asset_classinfos_chunk` ignores the per-key outcomes
of `save_classinfos`: replacing the disk-save oracle by any other (including
one where every save fails) leaves the call's result unchanged, and whenever
the HTTP call itself succeeds the chunk returns the fetched (parsed) classinfo
map to its caller regardless of those outcomes. -/
theorem c8_chunk_ignores_save_outcomes (env : ResolveEnv) (cache : ClassInfoMap)
    (appid : AppId) (classes : List ClassInfoAppClass) (saveOk2 : ClassInfoClass → Bool)
    (hfail : env.remoteFail appid = false) :
    get_app_asset_classinfos_chunk
        ⟨env.diskLoad, env.remoteRaw, env.parse, env.remoteFail, saveOk2⟩
        cache appid classes =
      get_app_asset_classinfos_chunk env cache appid classes ∧
    get_app_asset_classinfos_chunk env cache appid classes =
      Except.ok (tierMap (remoteParsed env) (classes.map (liftApp appid)) ++ cache,
        tierMap (remoteParsed env) (classes.map (liftApp appid)),
        classes.map (liftApp appid)) := by
  constructor
  · rw [get_app_asset_classinfos_chunk_eq
      ⟨env.diskLoad, env.remoteRaw, env.parse, env.remoteFail, saveOk2⟩ cache appid classes hfail]
    rw [get_app_asset_classinfos_chunk_eq env cache appid classes hfail]
    rfl
  · exact get_app_asset_classinfos_chunk_eq env cache appid classes hfail

/-- Witness for `c8_chunk_ignores_save_outcomes`: the remote-served witness
key, with the second save oracle failing every save. -/
theorem c8_witness :
    get_app_asset_classinfos_chunk
        ⟨envResolveW.diskLoad, envResolveW.remoteRaw, envResolveW.parse,
          envResolveW.remoteFail, fun _ => false⟩
        [] 440 [(1, none)] =
      get_app_asset_classinfos_chunk envResolveW [] 440 [(1, none)] ∧
    get_app_asset_classinfos_chunk envResolveW [] 440 [(1, none)] =
      Except.ok (tierMap (remoteParsed envResolveW) ([(1, none)].map (liftApp 440)) ++ [],
        tierMap (remoteParsed envResolveW) ([(1, none)].map (liftApp 440)),
        [(1, none)].map (liftApp 440)) :=
  c8_chunk_ignores_save_outcomes envResolveW [] 440 [(1, none)] (fun _ => false) rfl

/-! ## Claim C3 -/

theorem CacheDir.read_write_self (fs : CacheDir) (p : CacheFilePath) (c : String) :
    (fs.write p c).read p = some c := by
  simp [CacheDir.read, CacheDir.write, alookup]

theorem CacheDir.read_write_ne (fs : CacheDir) (p q : CacheFilePath) (c : String)
    (h : ¬ p = q) : (fs.write p c).read q = fs.read q := by
  simp [CacheDir.read, CacheDir.write, alookup, h]

theorem alookup_filter_out_self {κ α : Type} [DecidableEq κ] (m : List (κ × α)) (p : κ) :
    alookup (m.filter (fun e => ¬ e.1 = p)) p = none := by
  induction m with
  | nil => rfl
  | cons e rest ih =>
    obtain ⟨k, v⟩ := e
    by_cases he : k = p
    · rw [List.filter_cons, if_neg (by simp [he])]
      exact ih
    · rw [List.filter_cons, if_pos (by simp [he])]
      simpa [alookup, he] using ih

theorem alookup_filter_out_ne {κ α : Type} [DecidableEq κ] (m : List (κ × α)) (p q : κ)
    (h : ¬ p = q) : alookup (m.filter (fun e => ¬ e.1 = p)) q = alookup m q := by
  induction m with
  | nil => rfl
  | cons e rest ih =>
    obtain ⟨k, v⟩ := e
    by_cases he : k = p
    · rw [List.filter_cons, if_neg (by simp [he])]
      have hkq : ¬ k = q := fun hq => h (by rw [← he]; exact hq)
      rw [ih]
      simp [alookup, hkq]
    · rw [List.filter_cons, if_pos (by simp [he])]
      by_cases hkq : k = q
      · simp [alookup, hkq]
      · simpa [alookup, hkq] using ih

theorem CacheDir.read_remove_self (fs : CacheDir) (p : CacheFilePath) :
    (fs.remove p).read p = none :=
  alookup_filter_out_self fs.files p

theorem CacheDir.read_remove_ne (fs : CacheDir) (p q : CacheFilePath) (h : ¬ p = q) :
    (fs.remove p).read q = fs.read q :=
  alookup_filter_out_ne fs.files p q h

theorem get_classinfo_file_path_temp_ne (class0 : ClassInfoClass) (ts : Nat) :
    ¬ get_classinfo_file_path class0 true ts = get_classinfo_file_path class0 false ts := by
  simp [get_classinfo_file_path]

/-- Claim C3, amended.  `save_classinfo` writes the full content to a
temporary file distinct from the deterministic final filename, flushes, then
renames onto the final filename; the final filename never holds partial
content (it either keeps its previous content or atomically receives the full
new content).  A `write_all` error removes the temporary file and surfaces the
error; however a `flush` failure — although surfaced to the caller — leaves
the fully-written temporary file in place (the `?` on `temp_file.flush()` at
`helpers.rs` line 80 skips the removal branch), which is the one divergence
from the original claim (`c3_counterexample`). -/
theorem c3_save_classinfo_atomic (env : FsEnv) (class0 : ClassInfoClass) (content : String)
    (ts : Nat) (fs : CacheDir) :
    (¬ get_classinfo_file_path class0 true ts = get_classinfo_file_path class0 false ts) ∧
    (env.createOk = true → env.writeOk = true → env.flushOk = true → env.renameOk = true →
      (save_classinfo env class0 content ts fs).1 = Except.ok () ∧
      (save_classinfo env class0 content ts fs).2.read
        (get_classinfo_file_path class0 false ts) = some content ∧
      (save_classinfo env class0 content ts fs).2.read
        (get_classinfo_file_path class0 true ts) = none) ∧
    (env.createOk = true → env.writeOk = false → env.removeOk = true →
      (save_classinfo env class0 content ts fs).1 = Except.error FileError.writeError ∧
      (save_classinfo env class0 content ts fs).2.read
        (get_classinfo_file_path class0 true ts) = none) ∧
    (env.createOk = true → env.writeOk = true → env.flushOk = false →
      (save_classinfo env class0 content ts fs).1 = Except.error FileError.flushError ∧
      (save_classinfo env class0 content ts fs).2.read
        (get_classinfo_file_path class0 true ts) = some content) ∧
    ((save_classinfo env class0 content ts fs).2.read (get_classinfo_file_path class0 false ts) =
        fs.read (get_classinfo_file_path class0 false ts) ∨
      ((save_classinfo env class0 content ts fs).2.read
          (get_classinfo_file_path class0 false ts) = some content ∧
        (save_classinfo env class0 content ts fs).1 = Except.ok ())) := by
  have hne : ¬ get_classinfo_file_path class0 true ts = get_classinfo_file_path class0 false ts :=
    get_classinfo_file_path_temp_ne class0 ts
  have hne2 : ¬ get_classinfo_file_path class0 false ts = get_classinfo_file_path class0 true ts :=
    fun h => hne h.symm
  refine ⟨hne, ?_, ?_, ?_, ?_⟩
  · intro h1 h2 h3 h4
    simp only [save_classinfo, h1, h2, h3, h4]
    norm_num
    refine ⟨?_, ?_⟩
    · rw [CacheDir.read_write_self]
    · rw [CacheDir.read_write_ne _ _ _ _ hne2, CacheDir.read_remove_self]
  · intro h1 h2 h3
    simp only [save_classinfo, h1, h2, h3]
    norm_num
    rw [CacheDir.read_remove_self]
  · intro h1 h2 h3
    simp only [save_classinfo, h1, h2, h3]
    norm_num
    rw [CacheDir.read_write_self]
  · by_cases h1 : env.createOk
    · by_cases h2 : env.writeOk
      · by_cases h3 : env.flushOk
        · by_cases h4 : env.renameOk
          · right
            simp only [save_classinfo, h1, h2, h3, h4]
            norm_num
            rw [CacheDir.read_write_self]
          · left
            simp only [save_classinfo, h1, h2, h3]
            norm_num [h4]
            rw [CacheDir.read_write_ne _ _ _ _ hne, CacheDir.read_write_ne _ _ _ _ hne]
        · left
          simp only [save_classinfos, save_classinfo, h1, h2]
          norm_num [h3]
          rw [CacheDir.read_write_ne _ _ _ _ hne, CacheDir.read_write_ne _ _ _ _ hne]
      · by_cases h5 : env.removeOk
        · left
          simp only [save_classinfo, h1]
          norm_num [h2, h5]
          rw [CacheDir.read_remove_ne _ _ _ hne, CacheDir.read_write_ne _ _ _ _ hne,
            CacheDir.read_write_ne _ _ _ _ hne]
        · left
          simp only [save_classinfo, h1]
          norm_num [h2, h5]
          rw [CacheDir.read_write_ne _ _ _ _ hne, CacheDir.read_write_ne _ _ _ _ hne]
    · left
      simp only [save_classinfo]
      norm_num [h1]

/-- Witness for `c3_save_classinfo_atomic`: a fully successful save of content
`"x"` for class `(1, 2, none)` into an empty directory. -/
theorem c3_witness :
    (save_classinfo ⟨true, true, 0, true, true, true⟩ (1, 2, none) "x" 7 ⟨[]⟩).1 =
      Except.ok () ∧
    (save_classinfo ⟨true, true, 0, true, true, true⟩ (1, 2, none) "x" 7 ⟨[]⟩).2.read
      (get_classinfo_file_path (1, 2, none) false 7) = some "x" ∧
    (save_classinfo ⟨true, true, 0, true, true, true⟩ (1, 2, none) "x" 7 ⟨[]⟩).2.read
      (get_classinfo_file_path (1, 2, none) true 7) = none :=
  (c3_save_classinfo_atomic ⟨true, true, 0, true, true, true⟩ (1, 2, none) "x" 7 ⟨[]⟩).2.1
    rfl rfl rfl rfl

/-- Counterexample to claim C3 as stated: when the `flush` fails, the error is
returned to the caller but the temporary file is NOT removed — it remains with
the fully written content, contradicting "on any write error the temporary
file is removed". -/
theorem c3_counterexample :
    (save_classinfo ⟨true, true, 0, false, true, true⟩ (1, 2, none) "x" 7 ⟨[]⟩).1 =
      Except.error FileError.flushError ∧
    (save_classinfo ⟨true, true, 0, false, true, true⟩ (1, 2, none) "x" 7 ⟨[]⟩).2.read
      (get_classinfo_file_path (1, 2, none) true 7) = some "x" :=
  ⟨rfl, rfl⟩

/-! ## Poller stage lemmas -/

theorem poll_d2_state_map (cfg : PollConfig) (env : PollEnv) (d0 : PollData) (pt : PollType) :
    (poll_d2 cfg env d0 pt).state_map = d0.state_map := by
  unfold poll_d2
  split <;> split <;> rfl

theorem poll_d2_changed_of_active_only (cfg : PollConfig) (env : PollEnv) (d0 : PollData)
    (pt : PollType) (ha : pt.is_active_only = true)
    (hfu : poll_full_update cfg env d0 pt = false) :
    poll_d2 cfg env d0 pt = d0 := by
  unfold poll_d2
  rw [if_pos ha, if_neg (by simp [hfu])]

theorem set_offers_since_state_map (d : PollData) (t : Int) :
    (d.set_offers_since t).state_map = d.state_map := rfl

theorem trimStateMap_of_small (d : PollData)
    (h : d.state_map.length ≤ STATE_MAP_SIZE_LIMIT) : trimStateMap d = d := by
  unfold trimStateMap
  rw [if_neg (by omega)]

theorem poll_d4_state_map_small (cfg : PollConfig) (env : PollEnv) (d0 : PollData)
    (pt : PollType) (offers : List RawTradeOffer)
    (h : d0.state_map.length ≤ STATE_MAP_SIZE_LIMIT) :
    (poll_d4 cfg env d0 pt offers).state_map = d0.state_map := by
  unfold poll_d4
  have h3 : ∀ d : PollData, d.state_map = d0.state_map →
      (trimStateMap d).state_map = d0.state_map := by
    intro d hd
    rw [trimStateMap_of_small d (by rw [hd]; exact h), hd]
  apply h3
  split
  · exact poll_d2_state_map cfg env d0 pt
  · rw [set_offers_since_state_map, poll_d2_state_map]

theorem cancel_candidates_none (cfg : PollConfig) (now : Int) (offers : List RawTradeOffer)
    (h : cfg.cancel_duration = none) : cancel_candidates cfg now offers = [] := by
  simp [cancel_candidates, h]

theorem poll_offers2_of_no_cancel (cfg : PollConfig) (env : PollEnv)
    (offers : List RawTradeOffer) (h : cancelled_ids cfg env offers = []) :
    poll_offers2 cfg env offers = offers := by
  unfold poll_offers2
  rw [h]
  simp

/-! ## Claim C2 -/

/-- Claim C2.  From a state map holding offer A as `Active`, a fetched batch
of A now `Accepted` and a new offer B `Active` (neither glitched, both with
all classinfos resolvable, nothing cancelled), one cycle emits exactly
`[(A, previous = Active), (B, previous = absent)]` and afterwards the state
map holds exactly A as `Accepted` and B as `Active`. -/
theorem c2_diff_correctness (cfg : PollConfig) (env : PollEnv) (d0 : PollData) (pt : PollType)
    (oA oB : RawTradeOffer) (m : ClassInfoMap)
    (hne : ¬ oA.tradeofferid = oB.tradeofferid)
    (hsA : oA.trade_offer_state = TradeOfferState.Accepted)
    (hgA : oA.glitched = false)
    (hsB : oB.trade_offer_state = TradeOfferState.Active)
    (hgB : oB.glitched = false)
    (hsm : d0.state_map = [(oA.tradeofferid, TradeOfferState.Active)])
    (hcd : cfg.cancel_duration = none)
    (hf : env.fetchResult = Except.ok ([oA, oB], some m))
    (hrA : oA.classes.all (fun c => (alookup m c).isSome) = true)
    (hrB : oB.classes.all (fun c => (alookup m c).isSome) = true) :
    (do_poll cfg env d0 pt).result =
      Except.ok [(oA, some TradeOfferState.Active), (oB, none)] ∧
    alookup (do_poll cfg env d0 pt).poll_data.state_map oA.tradeofferid =
      some TradeOfferState.Accepted ∧
    alookup (do_poll cfg env d0 pt).poll_data.state_map oB.tradeofferid =
      some TradeOfferState.Active ∧
    (∀ k, ¬ k = oA.tradeofferid → ¬ k = oB.tradeofferid →
      alookup (do_poll cfg env d0 pt).poll_data.state_map k = none) := by
  have hcids : cancelled_ids cfg env [oA, oB] = [] := by
    simp [cancelled_ids, cancel_candidates_none cfg env.now [oA, oB] hcd]
  have ho2 : poll_offers2 cfg env [oA, oB] = [oA, oB] :=
    poll_offers2_of_no_cancel cfg env [oA, oB] hcids
  have hdiff : (poll_diff cfg env d0 pt [oA, oB]).2 =
      ([oA, oB], [(oA.tradeofferid, TradeOfferState.Active)]) := by
    unfold poll_diff
    rw [ho2, poll_d2_state_map, hsm]
    simp [diffOffers, diffStep, hgA, hgB, hsA, hsB, alookup, hne]
  have hd4sm : (poll_d4 cfg env d0 pt [oA, oB]).state_map =
      [(oA.tradeofferid, TradeOfferState.Active)] := by
    rw [poll_d4_state_map_small cfg env d0 pt [oA, oB] (by rw [hsm]; simp [STATE_MAP_SIZE_LIMIT]),
      hsm]
  have hmapped : map_raw_trade_offers_with_descriptions [oA, oB] m = [oA, oB] := by
    simp [map_raw_trade_offers_with_descriptions, hrA, hrB]
  have hemit : emitOffers [(oA.tradeofferid, TradeOfferState.Active)]
      [(oA.tradeofferid, TradeOfferState.Active)] [oA, oB] =
      ([(oA, some TradeOfferState.Active), (oB, none)],
        [(oB.tradeofferid, oB.trade_offer_state),
          (oA.tradeofferid, oA.trade_offer_state)]) := by
    simp [emitOffers, alookup, hne]
  have hout : do_poll cfg env d0 pt =
      ⟨{ poll_d4 cfg env d0 pt [oA, oB] with
          state_map :=
            [(oB.tradeofferid, oB.trade_offer_state),
              (oA.tradeofferid, oA.trade_offer_state)],
          changed := false },
        Except.ok [(oA, some TradeOfferState.Active), (oB, none)], true,
        (cancel_candidates cfg env.now [oA, oB]).map (fun o => o.tradeofferid)⟩ := by
    rw [do_poll, hf]
    dsimp only
    rw [hdiff]
    dsimp only
    rw [hmapped]
    simp only [List.isEmpty_cons, Bool.false_eq_true, if_false]
    rw [hd4sm, hemit]
    rfl
  have hne2 : ¬ oB.tradeofferid = oA.tradeofferid := fun h => hne h.symm
  rw [hout]
  refine ⟨rfl, ?_, ?_, ?_⟩
  · simp [alookup, hne2, hsA]
  · simp [alookup, hsB]
  · intro k hkA hkB
    have h1 : ¬ oA.tradeofferid = k := fun h => hkA h.symm
    have h2 : ¬ oB.tradeofferid = k := fun h => hkB h.symm
    simp [alookup, h1, h2]

/-- Witness for `c2_diff_correctness` at concrete offers: A = offer 1
(Active, then Accepted), B = offer 2 (new, Active). -/
theorem c2_witness :
    ((do_poll ⟨none, 1000⟩
        ⟨100, Except.ok ([⟨1, TradeOfferState.Accepted, false, 0, 10, false, []⟩,
          ⟨2, TradeOfferState.Active, false, 0, 11, false, []⟩], some []),
          fun _ => false, envUnresolvable, []⟩
        ⟨none, none, some 100, [(1, TradeOfferState.Active)], false⟩ PollType.Default).result =
      Except.ok [(⟨1, TradeOfferState.Accepted, false, 0, 10, false, []⟩,
        some TradeOfferState.Active),
        (⟨2, TradeOfferState.Active, false, 0, 11, false, []⟩, none)]) ∧
    alookup (do_poll ⟨none, 1000⟩
        ⟨100, Except.ok ([⟨1, TradeOfferState.Accepted, false, 0, 10, false, []⟩,
          ⟨2, TradeOfferState.Active, false, 0, 11, false, []⟩], some []),
          fun _ => false, envUnresolvable, []⟩
        ⟨none, none, some 100, [(1, TradeOfferState.Active)], false⟩
        PollType.Default).poll_data.state_map 1 = some TradeOfferState.Accepted ∧
    alookup (do_poll ⟨none, 1000⟩
        ⟨100, Except.ok ([⟨1, TradeOfferState.Accepted, false, 0, 10, false, []⟩,
          ⟨2, TradeOfferState.Active, false, 0, 11, false, []⟩], some []),
          fun _ => false, envUnresolvable, []⟩
        ⟨none, none, some 100, [(1, TradeOfferState.Active)], false⟩
        PollType.Default).poll_data.state_map 2 = some TradeOfferState.Active := by
  have h := c2_diff_correctness ⟨none, 1000⟩
    ⟨100, Except.ok ([⟨1, TradeOfferState.Accepted, false, 0, 10, false, []⟩,
      ⟨2, TradeOfferState.Active, false, 0, 11, false, []⟩], some []),
      fun _ => false, envUnresolvable, []⟩
    ⟨none, none, some 100, [(1, TradeOfferState.Active)], false⟩ PollType.Default
    ⟨1, TradeOfferState.Accepted, false, 0, 10, false, []⟩
    ⟨2, TradeOfferState.Active, false, 0, 11, false, []⟩ []
    (by decide) rfl rfl rfl rfl rfl rfl rfl (by decide) (by decide)
  exact ⟨h.1, h.2.1, h.2.2.1⟩

/-! ## Claim C4 -/

theorem diffOffers_matching (sm : List (TradeOfferId × TradeOfferState)) :
    ∀ (offers : List RawTradeOffer) (hw : Int),
    (∀ o ∈ offers, o.glitched = true ∨ alookup sm o.tradeofferid = some o.trade_offer_state) →
    ∃ hw1, diffOffers sm hw offers = (hw1, [], []) := by
  intro offers
  induction offers with
  | nil =>
    intro hw _
    exact ⟨hw, rfl⟩
  | cons o rest ih =>
    intro hw hcond
    have hstep : ∃ hw2, diffStep sm (hw, [], []) o = (hw2, [], []) := by
      by_cases hg : o.glitched = true
      · exact ⟨hw, by simp [diffStep, hg]⟩
      · rcases hcond o (List.mem_cons_self _ _) with hg2 | hm
        · exact absurd hg2 hg
        · refine ⟨if hw < o.time_updated then o.time_updated else hw, ?_⟩
          simp [diffStep, hg, hm]
    obtain ⟨hw2, hs⟩ := hstep
    have hfold : diffOffers sm hw (o :: rest) =
        List.foldl (diffStep sm) (diffStep sm (hw, [], []) o) rest := rfl
    rw [hfold, hs]
    exact ih hw2 (fun o2 h2 => hcond o2 (List.mem_cons_of_mem _ h2))

/-- Claim C4, amended.  For a poll cycle whose selector is active-only
(`Default` or `NewOffersOnly`) with no full update forced, whose state map is
within the trim limit, whose fetch succeeds with a batch that exactly matches
the state map, and in which nothing is cancelled: the cycle emits an empty
batch, the whole `PollData` (including the dirty flag, initially clean) is
unchanged, and `save_poll_data` is not invoked.  (For non-active-only
selectors the claim fails: `set_last_poll` runs and dirties the state, see
`c4_counterexample`.) -/
theorem c4_noop_cycle_silent (cfg : PollConfig) (env : PollEnv) (d0 : PollData)
    (pt : PollType) (offers : List RawTradeOffer) (descs : Option ClassInfoMap)
    (ha : pt.is_active_only = true)
    (hfu : poll_full_update cfg env d0 pt = false)
    (hch : d0.changed = false)
    (hlen : d0.state_map.length ≤ STATE_MAP_SIZE_LIMIT)
    (hf : env.fetchResult = Except.ok (offers, descs))
    (hmatch : ∀ o ∈ offers, alookup d0.state_map o.tradeofferid = some o.trade_offer_state)
    (hcanc : cancelled_ids cfg env offers = []) :
    (do_poll cfg env d0 pt).result = Except.ok [] ∧
    (do_poll cfg env d0 pt).saved = false ∧
    (do_poll cfg env d0 pt).poll_data = d0 := by
  have hd2 : poll_d2 cfg env d0 pt = d0 := poll_d2_changed_of_active_only cfg env d0 pt ha hfu
  obtain ⟨hw1, hdiff⟩ : ∃ hw1, poll_diff cfg env d0 pt offers = (hw1, [], []) := by
    unfold poll_diff
    rw [poll_offers2_of_no_cancel cfg env offers hcanc, hd2]
    exact diffOffers_matching d0.state_map offers _ (fun o ho => Or.inr (hmatch o ho))
  have hd4 : poll_d4 cfg env d0 pt offers = d0 := by
    unfold poll_d4
    rw [if_pos ha, hd2, trimStateMap_of_small d0 hlen]
  have hout : do_poll cfg env d0 pt =
      ⟨d0, Except.ok [], false,
        (cancel_candidates cfg env.now offers).map (fun o => o.tradeofferid)⟩ := by
    rw [do_poll, hf]
    dsimp only
    rw [hdiff, hd4]
    have hmapped :
        (match descs with
          | some m => Except.ok (map_raw_trade_offers_with_descriptions
              ((hw1, ([] : List RawTradeOffer),
                ([] : List (TradeOfferId × TradeOfferState)))).2.1 m)
          | none => map_raw_trade_offers env
              ((hw1, ([] : List RawTradeOffer),
                ([] : List (TradeOfferId × TradeOfferState)))).2.1) =
        Except.ok ([] : List RawTradeOffer) := by
      cases descs with
      | some m => rfl
      | none => rfl
    rw [hmapped]
    dsimp only
    rw [show (([] : List RawTradeOffer).isEmpty) = true from rfl]
    simp only [if_true]
    rw [if_neg (by simp [hch])]
  rw [hout]
  exact ⟨rfl, rfl, rfl⟩

/-- Witness for `c4_noop_cycle_silent`: a `Default` cycle whose only fetched
offer exactly matches the stored state. -/
theorem c4_witness :
    (do_poll ⟨none, 1000⟩
      ⟨100, Except.ok ([⟨1, TradeOfferState.Active, false, 0, 10, false, []⟩], some []),
        fun _ => false, envUnresolvable, []⟩
      ⟨none, none, some 100, [(1, TradeOfferState.Active)], false⟩ PollType.Default).result =
      Except.ok [] ∧
    (do_poll ⟨none, 1000⟩
      ⟨100, Except.ok ([⟨1, TradeOfferState.Active, false, 0, 10, false, []⟩], some []),
        fun _ => false, envUnresolvable, []⟩
      ⟨none, none, some 100, [(1, TradeOfferState.Active)], false⟩ PollType.Default).saved =
      false ∧
    (do_poll ⟨none, 1000⟩
      ⟨100, Except.ok ([⟨1, TradeOfferState.Active, false, 0, 10, false, []⟩], some []),
        fun _ => false, envUnresolvable, []⟩
      ⟨none, none, some 100, [(1, TradeOfferState.Active)], false⟩ PollType.Default).poll_data =
      ⟨none, none, some 100, [(1, TradeOfferState.Active)], false⟩ :=
  c4_noop_cycle_silent ⟨none, 1000⟩
    ⟨100, Except.ok ([⟨1, TradeOfferState.Active, false, 0, 10, false, []⟩], some []),
      fun _ => false, envUnresolvable, []⟩
    ⟨none, none, some 100, [(1, TradeOfferState.Active)], false⟩ PollType.Default
    [⟨1, TradeOfferState.Active, false, 0, 10, false, []⟩] (some [])
    rfl rfl rfl (by decide) rfl
    (by
      intro o ho
      simp only [List.mem_cons, List.not_mem_nil, or_false] at ho
      subst ho
      rfl)
    rfl

/-- Counterexample to claim C4 as stated: an `OffersSince` cycle with a
fetched batch exactly matching the state map still persists the `PollData`
document (`saved = true`), because `set_last_poll` (and `set_offers_since`)
run for non-active-only selectors and every `PollData` mutator sets the dirty
flag (spec section 4.4); the emitted batch is nevertheless empty. -/
theorem c4_counterexample :
    alookup [(1, TradeOfferState.Active)] 1 = some TradeOfferState.Active ∧
    (do_poll ⟨none, 1000⟩
      ⟨100, Except.ok ([⟨1, TradeOfferState.Active, false, 0, 10, false, []⟩], some []),
        fun _ => false, envUnresolvable, []⟩
      ⟨none, none, some 100, [(1, TradeOfferState.Active)], false⟩
      (PollType.OffersSince 50)).result = Except.ok [] ∧
    (do_poll ⟨none, 1000⟩
      ⟨100, Except.ok ([⟨1, TradeOfferState.Active, false, 0, 10, false, []⟩], some []),
        fun _ => false, envUnresolvable, []⟩
      ⟨none, none, some 100, [(1, TradeOfferState.Active)], false⟩
      (PollType.OffersSince 50)).saved = true :=
  ⟨rfl, rfl, rfl⟩

/-! ## Claim C9 -/

/-- Claim C9.  `TradeOfferManager::do_poll` never blocks: with a polling setup
whose channel is full it returns `PollingBufferFull` and leaves the manager
state — including the background task — untouched; with a closed channel or no
polling setup it returns `PollingNotSetup`, again leaving the state (and any
running task) untouched.  The non-blocking behaviour is inherent in the
embedded `try_send`, which only inspects the channel state and returns. -/
theorem c9_manager_do_poll_fail_fast (m : ManagerPolling) (pt : PollType) :
    (∀ ch task, m.polling = some (ch, task) → ch.closed = false →
      ch.capacity ≤ ch.queue.length →
      manager_do_poll m pt = (Except.error Error.PollingBufferFull, m)) ∧
    (∀ ch task, m.polling = some (ch, task) → ch.closed = true →
      manager_do_poll m pt = (Except.error Error.PollingNotSetup, m)) ∧
    (m.polling = none → manager_do_poll m pt = (Except.error Error.PollingNotSetup, m)) := by
  refine ⟨?_, ?_, ?_⟩
  · intro ch task hp hcl hfull
    obtain ⟨p⟩ := m
    cases hp
    simp [manager_do_poll, try_send, hcl, hfull]
  · intro ch task hp hcl
    obtain ⟨p⟩ := m
    cases hp
    simp [manager_do_poll, try_send, hcl]
  · intro hp
    obtain ⟨p⟩ := m
    cases hp
    rfl

/-- Witness for `c9_manager_do_poll_fail_fast` at the three concrete states:
a full channel, a closed channel, and no polling setup. -/
theorem c9_witness :
    manager_do_poll ⟨some (⟨1, [PollAction.DoPoll PollType.Default], false⟩, true)⟩
        PollType.Default =
      (Except.error Error.PollingBufferFull,
        ⟨some (⟨1, [PollAction.DoPoll PollType.Default], false⟩, true)⟩) ∧
    manager_do_poll ⟨some (⟨1, [], true⟩, true)⟩ PollType.Default =
      (Except.error Error.PollingNotSetup, ⟨some (⟨1, [], true⟩, true)⟩) ∧
    manager_do_poll ⟨none⟩ PollType.Default =
      (Except.error Error.PollingNotSetup, ⟨none⟩) :=
  ⟨(c9_manager_do_poll_fail_fast
      ⟨some (⟨1, [PollAction.DoPoll PollType.Default], false⟩, true)⟩ PollType.Default).1
      _ _ rfl rfl (by decide),
    (c9_manager_do_poll_fail_fast ⟨some (⟨1, [], true⟩, true)⟩ PollType.Default).2.1
      _ _ rfl rfl,
    (c9_manager_do_poll_fail_fast ⟨none⟩ PollType.Default).2.2 rfl⟩

/-! ## Claim C10 -/

/-- Claim C10.  In both paginated inventory loops, a successful response that
claims more items but carries a pagination cursor equal to the cursor just
used makes the loop stop immediately with `MalformedResponse` — for any
remaining step budget, i.e. the loop does not request pages forever. -/
theorem c10_inventory_loop_stops_on_echoed_cursor (env : InventoryEnv) (fuel : Nat)
    (start : Option Nat) (acc : List InventoryPage) (body : InventoryPage)
    (hp : env.page start = Except.ok body)
    (hsuc : body.success = true)
    (hmore : body.more_items = true)
    (hcur : body.next_cursor = start) :
    inventory_pages_loop env (fuel + 1) start acc =
      some (Except.error Error.MalformedResponse) ∧
    (start = none → acc = [] →
      get_inventory_old_pages env (fuel + 1) = some (Except.error Error.MalformedResponse) ∧
      get_inventory_with_classinfos_pages env (fuel + 1) =
        some (Except.error Error.MalformedResponse)) := by
  have hloop : inventory_pages_loop env (fuel + 1) start acc =
      some (Except.error Error.MalformedResponse) := by
    rw [inventory_pages_loop, hp]
    dsimp only
    rw [if_neg (by simp [hsuc]), if_pos (by simp [hmore]), if_pos hcur]
  refine ⟨hloop, ?_⟩
  intro hs hacc
  subst hs
  subst hacc
  exact ⟨hloop, hloop⟩

/-- Witness for `c10_inventory_loop_stops_on_echoed_cursor`: an endpoint that
always answers "success, more items, same cursor". -/
theorem c10_witness :
    get_inventory_old_pages ⟨fun _ => Except.ok ⟨true, true, none, []⟩⟩ 5 =
      some (Except.error Error.MalformedResponse) ∧
    get_inventory_with_classinfos_pages ⟨fun _ => Except.ok ⟨true, true, none, []⟩⟩ 5 =
      some (Except.error Error.MalformedResponse) :=
  ((c10_inventory_loop_stops_on_echoed_cursor ⟨fun _ => Except.ok ⟨true, true, none, []⟩⟩
    4 none [] ⟨true, true, none, []⟩ rfl rfl rfl rfl).2 rfl rfl)

/-! ## Claim C5 -/

theorem akeys_filter_not_mem {κ α : Type} [DecidableEq κ] (m : List (κ × α)) (ids : List κ) :
    akeys (m.filter (fun e => ¬ e.1 ∈ ids)) = (akeys m).filter (fun k => ¬ k ∈ ids) := by
  induction m with
  | nil => rfl
  | cons e rest ih =>
    obtain ⟨k, v⟩ := e
    by_cases hk : k ∈ ids
    · rw [List.filter_cons, if_neg (by simp [hk])]
      rw [show akeys ((k, v) :: rest) = k :: akeys rest from rfl]
      rw [List.filter_cons, if_neg (by simp [hk])]
      exact ih
    · rw [List.filter_cons, if_pos (by simp [hk])]
      rw [show akeys ((k, v) :: (rest.filter (fun e => ¬ e.1 ∈ ids))) =
        k :: akeys (rest.filter (fun e => ¬ e.1 ∈ ids)) from rfl]
      rw [show akeys ((k, v) :: rest) = k :: akeys rest from rfl]
      rw [List.filter_cons, if_pos (by simp [hk])]
      rw [ih]

theorem sortedIdsDesc_perm (sm : List (TradeOfferId × TradeOfferState)) :
    (sortedIdsDesc sm).Perm (akeys sm) :=
  List.mergeSort_perm (akeys sm) (fun a b => decide (b ≤ a))

theorem sortedIdsDesc_sorted (sm : List (TradeOfferId × TradeOfferState)) :
    List.Pairwise (fun a b => decide (b ≤ a) = true) (sortedIdsDesc sm) := by
  apply List.sorted_mergeSort
  · intro a b c hab hbc
    have h1 : b ≤ a := by simpa using hab
    have h2 : c ≤ b := by simpa using hbc
    simpa using Nat.le_trans h2 h1
  · intro a b
    rcases Nat.le_total a b with h | h <;> simp [h]

theorem trimStateMap_oversized (d : PollData)
    (hnd : (akeys d.state_map).Nodup)
    (hlen : STATE_MAP_SIZE_LIMIT < d.state_map.length) :
    (trimStateMap d).state_map.length = STATE_MAP_SPLIT_AT ∧
    (∀ k, k ∈ akeys (trimStateMap d).state_map ↔
      k ∈ (sortedIdsDesc d.state_map).take STATE_MAP_SPLIT_AT) ∧
    (∀ r ∈ akeys (trimStateMap d).state_map,
      ∀ q ∈ akeys d.state_map, ¬ q ∈ akeys (trimStateMap d).state_map → q < r) := by
  have hlenk : (akeys d.state_map).length = d.state_map.length := by
    simp [akeys]
  set s := sortedIdsDesc d.state_map with hs
  set dr := s.drop STATE_MAP_SPLIT_AT with hdr
  set tk := s.take STATE_MAP_SPLIT_AT with htk
  have hperm0 : s.Perm (akeys d.state_map) := sortedIdsDesc_perm d.state_map
  have hsortnd : s.Nodup := hperm0.nodup_iff.mpr hnd
  have hsplit : tk ++ dr = s := List.take_append_drop _ _
  have hdisj : tk.Disjoint dr := by
    have h0 := hsortnd
    rw [← hsplit] at h0
    exact (List.nodup_append.mp h0).2.2
  have htrim : (trimStateMap d).state_map =
      d.state_map.filter (fun e => ¬ e.1 ∈ dr) := by
    unfold trimStateMap
    rw [if_pos hlen]
    rfl
  have hkeys : akeys (trimStateMap d).state_map =
      (akeys d.state_map).filter (fun k => ¬ k ∈ dr) := by
    rw [htrim]
    exact akeys_filter_not_mem d.state_map dr
  have hfil : s.filter (fun k => ¬ k ∈ dr) = tk := by
    conv =>
      lhs
      rw [← hsplit]
    rw [List.filter_append]
    have hd0 : dr.filter (fun k => ¬ k ∈ dr) = [] := by
      rw [List.filter_eq_nil_iff]
      intro a ha
      simp [ha]
    have ht0 : tk.filter (fun k => ¬ k ∈ dr) = tk := by
      rw [List.filter_eq_self]
      intro a ha
      simp only [decide_eq_true_eq]
      exact fun hcontra => hdisj ha hcontra
    rw [hd0, ht0, List.append_nil]
  have hpermF : (akeys (trimStateMap d).state_map).Perm tk := by
    rw [hkeys, ← hfil]
    exact List.Perm.filter _ hperm0.symm
  have hsortlen : s.length = d.state_map.length := by
    rw [hperm0.length_eq, hlenk]
  refine ⟨?_, ?_, ?_⟩
  · have hlenT : (akeys (trimStateMap d).state_map).length =
        (trimStateMap d).state_map.length := by
      simp [akeys]
    rw [← hlenT, hpermF.length_eq, htk, List.length_take]
    have hs2 : STATE_MAP_SIZE_LIMIT < s.length := by
      rw [hsortlen]
      exact hlen
    have hs3 : 2500 < s.length := hs2
    have hsplit2000 : STATE_MAP_SPLIT_AT = 2000 := rfl
    rw [hsplit2000]
    omega
  · intro k
    exact hpermF.mem_iff
  · intro r hr q hq hqn
    have hrt : r ∈ tk := hpermF.mem_iff.mp hr
    have hqs : q ∈ s := hperm0.mem_iff.mpr hq
    have hqd : q ∈ dr := by
      rw [← hsplit] at hqs
      rcases List.mem_append.mp hqs with h | h
      · exact absurd (hpermF.mem_iff.mpr h) hqn
      · exact h
    have hpair := sortedIdsDesc_sorted d.state_map
    rw [← hs, ← hsplit] at hpair
    have hge := ((List.pairwise_append.mp hpair).2.2 r hrt q hqd)
    have hge2 : q ≤ r := by simpa using hge
    have hne : ¬ r = q := fun h => hdisj hrt (h ▸ hqd)
    exact Nat.lt_of_le_of_ne hge2 (fun h => hne h.symm)

theorem emitOffers_fst_map :
    ∀ (offers : List RawTradeOffer) (prev sm : List (TradeOfferId × TradeOfferState)),
    ((emitOffers prev sm offers).1).map (fun p => p.1) = offers := by
  intro offers
  induction offers with
  | nil =>
    intro prev sm
    rfl
  | cons o rest ih =>
    intro prev sm
    show ((o, alookup prev o.tradeofferid) ::
        (emitOffers (prev.filter (fun e => ¬ e.1 = o.tradeofferid))
          ((o.tradeofferid, o.trade_offer_state) ::
            sm.filter (fun e => ¬ e.1 = o.tradeofferid)) rest).1).map (fun p => p.1) =
      o :: rest
    rw [List.map_cons, ih]

theorem mem_akeys_filter_ne {κ α : Type} [DecidableEq κ] (sm : List (κ × α)) (k id : κ)
    (hk : k ∈ akeys sm) (hne : ¬ k = id) :
    k ∈ akeys (sm.filter (fun e => ¬ e.1 = id)) := by
  unfold akeys at hk ⊢
  obtain ⟨e, he, hek⟩ := List.mem_map.mp hk
  exact List.mem_map.mpr ⟨e, List.mem_filter.mpr ⟨he, by simpa [hek] using hne⟩, hek⟩

theorem emitOffers_snd_length_le :
    ∀ (offers : List RawTradeOffer) (prev sm : List (TradeOfferId × TradeOfferState)),
    (emitOffers prev sm offers).2.length ≤ offers.length + sm.length := by
  intro offers
  induction offers with
  | nil =>
    intro prev sm
    simp [emitOffers]
  | cons o rest ih =>
    intro prev sm
    show (emitOffers (prev.filter (fun e => ¬ e.1 = o.tradeofferid))
        ((o.tradeofferid, o.trade_offer_state) ::
          sm.filter (fun e => ¬ e.1 = o.tradeofferid)) rest).2.length ≤
      (o :: rest).length + sm.length
    calc (emitOffers (prev.filter (fun e => ¬ e.1 = o.tradeofferid))
        ((o.tradeofferid, o.trade_offer_state) ::
          sm.filter (fun e => ¬ e.1 = o.tradeofferid)) rest).2.length ≤
          rest.length + ((o.tradeofferid, o.trade_offer_state) ::
            sm.filter (fun e => ¬ e.1 = o.tradeofferid)).length := ih _ _
      _ ≤ (o :: rest).length + sm.length := by
          simp only [List.length_cons]
          have hfl := List.length_filter_le (fun (e : TradeOfferId × TradeOfferState) =>
            ¬ e.1 = o.tradeofferid) sm
          omega

theorem emitOffers_snd_keys_superset :
    ∀ (offers : List RawTradeOffer) (prev sm : List (TradeOfferId × TradeOfferState))
      (k : TradeOfferId), k ∈ akeys sm → k ∈ akeys (emitOffers prev sm offers).2 := by
  intro offers
  induction offers with
  | nil =>
    intro prev sm k hk
    exact hk
  | cons o rest ih =>
    intro prev sm k hk
    show k ∈ akeys (emitOffers (prev.filter (fun e => ¬ e.1 = o.tradeofferid))
      ((o.tradeofferid, o.trade_offer_state) ::
        sm.filter (fun e => ¬ e.1 = o.tradeofferid)) rest).2
    apply ih
    show k ∈ o.tradeofferid :: akeys (sm.filter (fun e => ¬ e.1 = o.tradeofferid))
    by_cases hko : k = o.tradeofferid
    · rw [hko]
      exact List.mem_cons_self _ _
    · exact List.mem_cons_of_mem _ (mem_akeys_filter_ne sm k o.tradeofferid hk hko)

theorem emitOffers_snd_length_fresh :
    ∀ (offers : List RawTradeOffer) (prev sm : List (TradeOfferId × TradeOfferState)),
    (∀ o ∈ offers, ¬ o.tradeofferid ∈ akeys sm) →
    (offers.map (fun o => o.tradeofferid)).Nodup →
    (emitOffers prev sm offers).2.length = offers.length + sm.length := by
  intro offers
  induction offers with
  | nil =>
    intro prev sm _ _
    simp [emitOffers]
  | cons o rest ih =>
    intro prev sm hfresh hnd
    rw [List.map_cons] at hnd
    show (emitOffers (prev.filter (fun e => ¬ e.1 = o.tradeofferid))
        ((o.tradeofferid, o.trade_offer_state) ::
          sm.filter (fun e => ¬ e.1 = o.tradeofferid)) rest).2.length =
      (o :: rest).length + sm.length
    have hfilter : sm.filter (fun e => ¬ e.1 = o.tradeofferid) = sm := by
      apply List.filter_eq_self.mpr
      intro e he
      have hne : ¬ e.1 = o.tradeofferid := by
        intro h
        exact hfresh o (List.mem_cons_self _ _)
          (h ▸ List.mem_map.mpr ⟨e, he, rfl⟩)
      simpa using hne
    rw [hfilter]
    rw [ih _ _ ?_ ?_]
    · simp only [List.length_cons]
      omega
    · intro o2 ho2 hmem
      rcases List.mem_cons.mp hmem with h | h
      · have hm2 : o2.tradeofferid ∈ rest.map (fun o => o.tradeofferid) :=
          List.mem_map.mpr ⟨o2, ho2, rfl⟩
        rw [h] at hm2
        exact (List.nodup_cons.mp hnd).1 hm2
      · exact hfresh o2 (List.mem_cons_of_mem _ ho2) h
    · exact (List.nodup_cons.mp hnd).2

theorem poll_d3_state_map (cfg : PollConfig) (env : PollEnv) (d0 : PollData) (pt : PollType)
    (offers : List RawTradeOffer) :
    (if pt.is_active_only then poll_d2 cfg env d0 pt
      else (poll_d2 cfg env d0 pt).set_offers_since
        (poll_diff cfg env d0 pt offers).1).state_map = d0.state_map := by
  split
  · exact poll_d2_state_map cfg env d0 pt
  · rw [set_offers_since_state_map, poll_d2_state_map]

theorem do_poll_state_map_keys_superset (cfg : PollConfig) (env : PollEnv) (d0 : PollData)
    (pt : PollType) (offers : List RawTradeOffer) (m : ClassInfoMap)
    (hf : env.fetchResult = Except.ok (offers, some m)) :
    ∀ k ∈ akeys (poll_d4 cfg env d0 pt offers).state_map,
      k ∈ akeys (do_poll cfg env d0 pt).poll_data.state_map := by
  have hfinal : ∀ (x : PollData),
      (if x.changed then ({ x with changed := false }, true) else (x, false)).1.state_map =
        x.state_map := by
    intro x
    split <;> rfl
  intro k hk
  rw [do_poll, hf]
  dsimp only
  by_cases hemp : (map_raw_trade_offers_with_descriptions
      (poll_diff cfg env d0 pt offers).2.1 m).isEmpty
  · rw [if_pos hemp]
    dsimp only
    rw [hfinal]
    exact hk
  · rw [if_neg hemp]
    dsimp only
    rw [if_pos rfl]
    dsimp only
    exact emitOffers_snd_keys_superset _ _ _ k hk

theorem do_poll_state_map_length_le (cfg : PollConfig) (env : PollEnv) (d0 : PollData)
    (pt : PollType) (offers : List RawTradeOffer) (m : ClassInfoMap)
    (hf : env.fetchResult = Except.ok (offers, some m)) :
    (do_poll cfg env d0 pt).poll_data.state_map.length ≤
      (poll_d4 cfg env d0 pt offers).state_map.length +
        (map_raw_trade_offers_with_descriptions
          (poll_diff cfg env d0 pt offers).2.1 m).length := by
  have hfinal : ∀ (x : PollData),
      (if x.changed then ({ x with changed := false }, true) else (x, false)).1.state_map =
        x.state_map := by
    intro x
    split <;> rfl
  rw [do_poll, hf]
  dsimp only
  by_cases hemp : (map_raw_trade_offers_with_descriptions
      (poll_diff cfg env d0 pt offers).2.1 m).isEmpty
  · rw [if_pos hemp]
    dsimp only
    rw [hfinal]
    exact Nat.le_add_right _ _
  · rw [if_neg hemp]
    dsimp only
    rw [if_pos rfl]
    dsimp only
    exact le_of_le_of_eq (emitOffers_snd_length_le _ _ _) (Nat.add_comm _ _)

theorem do_poll_state_map_length (cfg : PollConfig) (env : PollEnv) (d0 : PollData)
    (pt : PollType) (offers : List RawTradeOffer) (m : ClassInfoMap)
    (hnd : (akeys d0.state_map).Nodup)
    (hlen : STATE_MAP_SIZE_LIMIT < d0.state_map.length)
    (hf : env.fetchResult = Except.ok (offers, some m))
    (hfresh : ∀ o ∈ map_raw_trade_offers_with_descriptions
        (poll_diff cfg env d0 pt offers).2.1 m, ¬ o.tradeofferid ∈ akeys d0.state_map)
    (hmnodup : ((map_raw_trade_offers_with_descriptions
        (poll_diff cfg env d0 pt offers).2.1 m).map (fun o => o.tradeofferid)).Nodup) :
    (do_poll cfg env d0 pt).poll_data.state_map.length =
      STATE_MAP_SPLIT_AT +
        (map_raw_trade_offers_with_descriptions
          (poll_diff cfg env d0 pt offers).2.1 m).length := by
  have hnd3 : (akeys (if pt.is_active_only then poll_d2 cfg env d0 pt
      else (poll_d2 cfg env d0 pt).set_offers_since
        (poll_diff cfg env d0 pt offers).1).state_map).Nodup := by
    rw [show akeys (if pt.is_active_only then poll_d2 cfg env d0 pt
      else (poll_d2 cfg env d0 pt).set_offers_since
        (poll_diff cfg env d0 pt offers).1).state_map = akeys d0.state_map from by
      rw [poll_d3_state_map]]
    exact hnd
  have hlen3 : STATE_MAP_SIZE_LIMIT <
      (if pt.is_active_only then poll_d2 cfg env d0 pt
        else (poll_d2 cfg env d0 pt).set_offers_since
          (poll_diff cfg env d0 pt offers).1).state_map.length := by
    rw [poll_d3_state_map]
    exact hlen
  have hd4len : (poll_d4 cfg env d0 pt offers).state_map.length = STATE_MAP_SPLIT_AT :=
    (trimStateMap_oversized _ hnd3 hlen3).1
  have hd4sub : ∀ k, k ∈ akeys (poll_d4 cfg env d0 pt offers).state_map →
      k ∈ akeys d0.state_map := by
    intro k hk
    have hkt := ((trimStateMap_oversized _ hnd3 hlen3).2.1 k).mp hk
    have hks := List.take_subset _ _ hkt
    have hka := (sortedIdsDesc_perm _).mem_iff.mp hks
    rw [poll_d3_state_map] at hka
    exact hka
  have hfresh4 : ∀ o ∈ map_raw_trade_offers_with_descriptions
      (poll_diff cfg env d0 pt offers).2.1 m,
      ¬ o.tradeofferid ∈ akeys (poll_d4 cfg env d0 pt offers).state_map :=
    fun o ho hmem => hfresh o ho (hd4sub _ hmem)
  have hfinal : ∀ (x : PollData),
      (if x.changed then ({ x with changed := false }, true) else (x, false)).1.state_map =
        x.state_map := by
    intro x
    split <;> rfl
  rw [do_poll, hf]
  dsimp only
  by_cases hemp : (map_raw_trade_offers_with_descriptions
      (poll_diff cfg env d0 pt offers).2.1 m).isEmpty
  · rw [if_pos hemp]
    dsimp only
    rw [hfinal, hd4len]
    rw [List.isEmpty_iff.mp hemp]
    rfl
  · rw [if_neg hemp]
    dsimp only
    rw [if_pos rfl]
    dsimp only
    rw [emitOffers_snd_length_fresh _ _ _ hfresh4 hmnodup, hd4len]
    omega

/-- Claim C5, amended.  Once the state map exceeds 2500 entries (distinct ids,
fetch succeeding with descriptions), the trim step of the same cycle reduces
it to exactly the 2000 numerically highest trade-offer ids (every retained id
is larger than every dropped id).  The emission step then re-inserts one entry
per emitted offer into the trimmed map, replacing any existing entry for that
id, so every retained id is still present at the end of the cycle and the
end-of-cycle size is at most 2000 plus the emitted batch size — but it can
exceed 2000: `c5_counterexample` shows a cycle that ends with 2001 entries,
refuting the claimed end-of-cycle bound. -/
theorem c5_trim_retains_top_ids (cfg : PollConfig) (env : PollEnv) (d0 : PollData)
    (pt : PollType) (offers : List RawTradeOffer) (m : ClassInfoMap)
    (hnd : (akeys d0.state_map).Nodup)
    (hlen : STATE_MAP_SIZE_LIMIT < d0.state_map.length)
    (hf : env.fetchResult = Except.ok (offers, some m)) :
    (poll_d4 cfg env d0 pt offers).state_map.length = STATE_MAP_SPLIT_AT ∧
    (∀ r ∈ akeys (poll_d4 cfg env d0 pt offers).state_map,
      ∀ q ∈ akeys d0.state_map,
        ¬ q ∈ akeys (poll_d4 cfg env d0 pt offers).state_map → q < r) ∧
    (∀ k ∈ akeys (poll_d4 cfg env d0 pt offers).state_map,
      k ∈ akeys (do_poll cfg env d0 pt).poll_data.state_map) ∧
    (do_poll cfg env d0 pt).poll_data.state_map.length ≤
      STATE_MAP_SPLIT_AT +
        (map_raw_trade_offers_with_descriptions
          (poll_diff cfg env d0 pt offers).2.1 m).length := by
  have hnd3 : (akeys (if pt.is_active_only then poll_d2 cfg env d0 pt
      else (poll_d2 cfg env d0 pt).set_offers_since
        (poll_diff cfg env d0 pt offers).1).state_map).Nodup := by
    rw [show akeys (if pt.is_active_only then poll_d2 cfg env d0 pt
      else (poll_d2 cfg env d0 pt).set_offers_since
        (poll_diff cfg env d0 pt offers).1).state_map = akeys d0.state_map from by
      rw [poll_d3_state_map]]
    exact hnd
  have hlen3 : STATE_MAP_SIZE_LIMIT <
      (if pt.is_active_only then poll_d2 cfg env d0 pt
        else (poll_d2 cfg env d0 pt).set_offers_since
          (poll_diff cfg env d0 pt offers).1).state_map.length := by
    rw [poll_d3_state_map]
    exact hlen
  obtain ⟨h1, _, h3⟩ := trimStateMap_oversized _ hnd3 hlen3
  have h1' : (poll_d4 cfg env d0 pt offers).state_map.length = STATE_MAP_SPLIT_AT := h1
  refine ⟨h1', ?_, do_poll_state_map_keys_superset cfg env d0 pt offers m hf, ?_⟩
  · intro r hr q hq hqn
    apply h3 r hr q ?_ hqn
    rw [poll_d3_state_map]
    exact hq
  · have h4 := do_poll_state_map_length_le cfg env d0 pt offers m hf
    rw [h1'] at h4
    exact h4

theorem akeys_smOversized_nodup : (akeys smOversized).Nodup := by
  unfold smOversized akeys
  rw [List.map_map]
  rw [show ((fun (e : TradeOfferId × TradeOfferState) => e.1) ∘
    (fun i => (i, TradeOfferState.Active))) = fun (i : Nat) => i from rfl]
  rw [show (fun (i : Nat) => i) = (id : Nat → Nat) from rfl, List.map_id]
  exact List.nodup_range 2501

theorem smOversized_length : smOversized.length = 2501 := by
  unfold smOversized
  rw [List.length_map, List.length_range]

/-- Witness for `c5_trim_retains_top_ids` at the concrete oversized state map
with one new fetched offer. -/
theorem c5_witness :
    (poll_d4 cfgC5 envC5 d0C5 PollType.Default [oNewC5]).state_map.length =
      STATE_MAP_SPLIT_AT ∧
    (∀ r ∈ akeys (poll_d4 cfgC5 envC5 d0C5 PollType.Default [oNewC5]).state_map,
      ∀ q ∈ akeys d0C5.state_map,
        ¬ q ∈ akeys (poll_d4 cfgC5 envC5 d0C5 PollType.Default [oNewC5]).state_map → q < r) ∧
    (∀ k ∈ akeys (poll_d4 cfgC5 envC5 d0C5 PollType.Default [oNewC5]).state_map,
      k ∈ akeys (do_poll cfgC5 envC5 d0C5 PollType.Default).poll_data.state_map) ∧
    (do_poll cfgC5 envC5 d0C5 PollType.Default).poll_data.state_map.length ≤
      STATE_MAP_SPLIT_AT +
        (map_raw_trade_offers_with_descriptions
          (poll_diff cfgC5 envC5 d0C5 PollType.Default [oNewC5]).2.1 []).length :=
  c5_trim_retains_top_ids cfgC5 envC5 d0C5 PollType.Default [oNewC5] []
    akeys_smOversized_nodup
    (by rw [show d0C5.state_map = smOversized from rfl, smOversized_length]; decide)
    rfl

/-- Counterexample to claim C5 as stated: from a 2501-entry state map, a cycle
that also emits one new offer ends with 2001 entries — the trim to 2000
happens before the emission step inserts the cycle's offers, so "at most 2000
entries by the end of the cycle" fails. -/
theorem c5_counterexample :
    STATE_MAP_SIZE_LIMIT < d0C5.state_map.length ∧
    ¬ (do_poll cfgC5 envC5 d0C5 PollType.Default).poll_data.state_map.length ≤
      STATE_MAP_SPLIT_AT := by
  have hlen : STATE_MAP_SIZE_LIMIT < d0C5.state_map.length := by
    rw [show d0C5.state_map = smOversized from rfl, smOversized_length]
    decide
  have hnotmem : ¬ (5000 : TradeOfferId) ∈ akeys d0C5.state_map := by
    show ¬ 5000 ∈ akeys smOversized
    unfold smOversized akeys
    rw [List.map_map]
    intro hmem
    obtain ⟨i, hi, hie⟩ := List.mem_map.mp hmem
    have hi2 : i < 2501 := List.mem_range.mp hi
    have hi5 : i = 5000 := by simpa using hie
    rw [hi5] at hi2
    exact absurd hi2 (by decide)
  have hlook : alookup d0C5.state_map 5000 = none := by
    apply alookup_eq_none_of_not_mem_akeys
    exact hnotmem
  have hdr : (poll_diff cfgC5 envC5 d0C5 PollType.Default [oNewC5]).2.1 = [oNewC5] := by
    unfold poll_diff
    rw [poll_offers2_of_no_cancel cfgC5 envC5 [oNewC5]
      (by simp [cancelled_ids, cancel_candidates_none cfgC5 envC5.now [oNewC5] rfl])]
    rw [poll_d2_state_map]
    simp [diffOffers, diffStep, hlook, oNewC5]
  have hmapped : map_raw_trade_offers_with_descriptions [oNewC5] [] = [oNewC5] := by
    simp [map_raw_trade_offers_with_descriptions, oNewC5]
  have hfresh : ∀ o ∈ map_raw_trade_offers_with_descriptions
      (poll_diff cfgC5 envC5 d0C5 PollType.Default [oNewC5]).2.1 [],
      ¬ o.tradeofferid ∈ akeys d0C5.state_map := by
    rw [hdr, hmapped]
    intro o ho hmem
    rw [List.mem_singleton.mp ho] at hmem
    exact hnotmem hmem
  have hmnodup : ((map_raw_trade_offers_with_descriptions
      (poll_diff cfgC5 envC5 d0C5 PollType.Default [oNewC5]).2.1 []).map
        (fun o => o.tradeofferid)).Nodup := by
    rw [hdr, hmapped]
    decide
  have hml := do_poll_state_map_length cfgC5 envC5 d0C5 PollType.Default [oNewC5] []
    akeys_smOversized_nodup hlen rfl hfresh hmnodup
  rw [hdr, hmapped] at hml
  refine ⟨hlen, ?_⟩
  rw [hml]
  decide

/-! ## Claim C6 -/

theorem diffStep_poll (sm : List (TradeOfferId × TradeOfferState))
    (acc : Int × List RawTradeOffer × List (TradeOfferId × TradeOfferState))
    (o : RawTradeOffer) :
    (diffStep sm acc o).2.1 =
      if o.glitched = true then acc.2.1
      else
        match alookup sm o.tradeofferid with
        | some s => if s = o.trade_offer_state then acc.2.1 else acc.2.1 ++ [o]
        | none => acc.2.1 ++ [o] := by
  by_cases hg : o.glitched = true
  · simp [diffStep, hg]
  · cases hl : alookup sm o.tradeofferid with
    | some s =>
      by_cases hs : s = o.trade_offer_state
      · simp [diffStep, hg, hl, hs]
      · simp [diffStep, hg, hl, hs]
    | none => simp [diffStep, hg, hl]

theorem diffOffers_mem_poll (sm : List (TradeOfferId × TradeOfferState)) :
    ∀ (offers : List RawTradeOffer)
      (acc : Int × List RawTradeOffer × List (TradeOfferId × TradeOfferState))
      (x : RawTradeOffer),
    (x ∈ (offers.foldl (diffStep sm) acc).2.1 ↔
      (x ∈ acc.2.1 ∨ (x ∈ offers ∧ x.glitched = false ∧
        ¬ alookup sm x.tradeofferid = some x.trade_offer_state))) := by
  intro offers
  induction offers with
  | nil =>
    intro acc x
    simp
  | cons o rest ih =>
    intro acc x
    rw [List.foldl_cons, ih (diffStep sm acc o) x]
    have hstep : (diffStep sm acc o).2.1 = acc.2.1 ∨
        ((diffStep sm acc o).2.1 = acc.2.1 ++ [o] ∧ o.glitched = false ∧
          ¬ alookup sm o.tradeofferid = some o.trade_offer_state) := by
      rw [diffStep_poll]
      by_cases hg : o.glitched = true
      · rw [if_pos hg]
        exact Or.inl rfl
      · rw [if_neg hg]
        cases hl : alookup sm o.tradeofferid with
        | some s =>
          dsimp only
          by_cases hs : s = o.trade_offer_state
          · rw [if_pos hs]
            exact Or.inl rfl
          · rw [if_neg hs]
            refine Or.inr ⟨rfl, by simpa using hg, ?_⟩
            intro hcontra
            exact hs (by injection hcontra)
        | none =>
          dsimp only
          refine Or.inr ⟨rfl, by simpa using hg, ?_⟩
          intro hcontra
          exact Option.noConfusion hcontra
    rcases hstep with h | ⟨h, hg, hc⟩
    · rw [h]
      constructor
      · rintro (hx | ⟨hxr, hxg, hxc⟩)
        · exact Or.inl hx
        · exact Or.inr ⟨List.mem_cons_of_mem _ hxr, hxg, hxc⟩
      · rintro (hx | ⟨hxm, hxg, hxc⟩)
        · exact Or.inl hx
        · rcases List.mem_cons.mp hxm with hxo | hxr
          · subst hxo
            exfalso
            rw [diffStep_poll, if_neg (by simp [hxg])] at h
            cases hl : alookup sm x.tradeofferid with
            | some s =>
              rw [hl] at h
              dsimp only at h
              by_cases hs : s = x.trade_offer_state
              · exact hxc (hs ▸ hl)
              · rw [if_neg hs] at h
                simp at h
            | none =>
              rw [hl] at h
              dsimp only at h
              simp at h
          · exact Or.inr ⟨hxr, hxg, hxc⟩
    · rw [h]
      constructor
      · rintro (hx | ⟨hxr, hxg, hxc⟩)
        · rcases List.mem_append.mp hx with hxa | hxo
          · exact Or.inl hxa
          · have hxo2 : x = o := by simpa using hxo
            subst hxo2
            exact Or.inr ⟨List.mem_cons_self _ _, hg, hc⟩
        · exact Or.inr ⟨List.mem_cons_of_mem _ hxr, hxg, hxc⟩
      · rintro (hx | ⟨hxm, hxg, hxc⟩)
        · exact Or.inl (List.mem_append.mpr (Or.inl hx))
        · rcases List.mem_cons.mp hxm with hxo | hxr
          · subst hxo
            exact Or.inl (List.mem_append.mpr (Or.inr (by simp)))
          · exact Or.inr ⟨hxr, hxg, hxc⟩

theorem do_poll_descr_result (cfg : PollConfig) (env : PollEnv) (d0 : PollData)
    (pt : PollType) (offers : List RawTradeOffer) (m : ClassInfoMap)
    (hf : env.fetchResult = Except.ok (offers, some m)) :
    ∃ pairs, (do_poll cfg env d0 pt).result = Except.ok pairs ∧
      pairs.map (fun p => p.1) =
        map_raw_trade_offers_with_descriptions (poll_diff cfg env d0 pt offers).2.1 m ∧
      (do_poll cfg env d0 pt).cancelIssued =
        (cancel_candidates cfg env.now offers).map (fun o => o.tradeofferid) := by
  rw [do_poll, hf]
  dsimp only
  by_cases hemp : (map_raw_trade_offers_with_descriptions
      (poll_diff cfg env d0 pt offers).2.1 m).isEmpty
  · rw [if_pos hemp]
    refine ⟨[], rfl, ?_, rfl⟩
    rw [List.isEmpty_iff.mp hemp]
    rfl
  · rw [if_neg hemp]
    dsimp only
    exact ⟨_, rfl, emitOffers_fst_map _ _ _, rfl⟩

theorem cancelOk_of_mem_cancelled_ids (cfg : PollConfig) (env : PollEnv)
    (offers : List RawTradeOffer) (id : TradeOfferId)
    (h : id ∈ cancelled_ids cfg env offers) : env.cancelOk id = true := by
  unfold cancelled_ids at h
  obtain ⟨o, _, he⟩ := List.mem_filterMap.mp h
  by_cases hok : env.cancelOk o.tradeofferid = true
  · rw [if_pos hok] at he
    have hid : o.tradeofferid = id := by injection he
    rw [← hid]
    exact hok
  · rw [if_neg hok] at he
    exact Option.noConfusion he

theorem poll_offers2_id (cfg : PollConfig) (env : PollEnv) (offers : List RawTradeOffer)
    (o : RawTradeOffer) :
    ((if o.tradeofferid ∈ cancelled_ids cfg env offers then
        { o with trade_offer_state := TradeOfferState.Canceled }
      else o) : RawTradeOffer).tradeofferid = o.tradeofferid := by
  split <;> rfl

/-- Claim C6, amended.  With a configured cancel duration and distinct fetched
offer ids: (1) every fetched offer that qualifies (active or
needs-confirmation, ours, older than the cutoff) has a cancellation issued for
it; (2) every qualifying offer whose cancellation succeeds and which is not
glitched, has resolvable classinfos and whose previously recorded state is not
already `Canceled` is reported in the cycle's diff with state `Canceled` even
though the fetch returned it as `Active`; (3) offers whose cancellation fails
keep their fetched state in anything the cycle emits.  (The original claim's
unconditional part (2) fails for glitched offers: `c6_counterexample`.) -/
theorem c6_auto_cancel (cfg : PollConfig) (env : PollEnv) (d0 : PollData) (pt : PollType)
    (offers : List RawTradeOffer) (m : ClassInfoMap) (dur : Int)
    (hcd : cfg.cancel_duration = some dur)
    (hf : env.fetchResult = Except.ok (offers, some m))
    (hnodup : (offers.map (fun o => o.tradeofferid)).Nodup) :
    ∃ pairs, (do_poll cfg env d0 pt).result = Except.ok pairs ∧
      (∀ o ∈ offers, qualifiesForCancel env.now dur o = true →
        o.tradeofferid ∈ (do_poll cfg env d0 pt).cancelIssued) ∧
      (∀ o ∈ offers, qualifiesForCancel env.now dur o = true →
        env.cancelOk o.tradeofferid = true →
        o.glitched = false →
        (o.classes.all (fun c => (alookup m c).isSome)) = true →
        ¬ alookup d0.state_map o.tradeofferid = some TradeOfferState.Canceled →
        ∃ p ∈ pairs, p.1.tradeofferid = o.tradeofferid ∧
          p.1.trade_offer_state = TradeOfferState.Canceled) ∧
      (∀ o ∈ offers, env.cancelOk o.tradeofferid = false →
        ∀ p ∈ pairs, p.1.tradeofferid = o.tradeofferid →
          p.1.trade_offer_state = o.trade_offer_state) := by
  obtain ⟨pairs, hres, hmap, hci⟩ := do_poll_descr_result cfg env d0 pt offers m hf
  refine ⟨pairs, hres, ?_, ?_, ?_⟩
  · intro o ho hq
    rw [hci]
    apply List.mem_map.mpr
    refine ⟨o, ?_, rfl⟩
    unfold cancel_candidates
    rw [hcd]
    exact List.mem_filter.mpr ⟨ho, hq⟩
  · intro o ho hq hok hg hr hprior
    have hidc : o.tradeofferid ∈ cancelled_ids cfg env offers := by
      unfold cancelled_ids
      apply List.mem_filterMap.mpr
      refine ⟨o, ?_, ?_⟩
      · unfold cancel_candidates
        rw [hcd]
        exact List.mem_filter.mpr ⟨ho, hq⟩
      · rw [if_pos hok]
    have hmem2 : ({ o with trade_offer_state := TradeOfferState.Canceled } : RawTradeOffer) ∈
        poll_offers2 cfg env offers := by
      unfold poll_offers2
      apply List.mem_map.mpr
      exact ⟨o, ho, by rw [if_pos hidc]⟩
    have hpoll : ({ o with trade_offer_state := TradeOfferState.Canceled } : RawTradeOffer) ∈
        (poll_diff cfg env d0 pt offers).2.1 := by
      unfold poll_diff diffOffers
      apply (diffOffers_mem_poll _ _ _ _).mpr
      right
      refine ⟨hmem2, hg, ?_⟩
      rw [poll_d2_state_map]
      exact hprior
    have hx : ({ o with trade_offer_state := TradeOfferState.Canceled } : RawTradeOffer) ∈
        map_raw_trade_offers_with_descriptions (poll_diff cfg env d0 pt offers).2.1 m :=
      List.mem_filter.mpr ⟨hpoll, hr⟩
    rw [← hmap] at hx
    obtain ⟨p, hp, hpe⟩ := List.mem_map.mp hx
    refine ⟨p, hp, ?_, ?_⟩
    · rw [hpe]
    · rw [hpe]
  · intro o ho hok p hp hpid
    have hx : p.1 ∈ map_raw_trade_offers_with_descriptions
        (poll_diff cfg env d0 pt offers).2.1 m := by
      rw [← hmap]
      exact List.mem_map_of_mem (fun p => p.1) hp
    have hpoll : p.1 ∈ (poll_diff cfg env d0 pt offers).2.1 :=
      (List.mem_filter.mp hx).1
    have hmem2 : p.1 ∈ poll_offers2 cfg env offers := by
      unfold poll_diff diffOffers at hpoll
      rcases (diffOffers_mem_poll _ _ _ _).mp hpoll with hcontra | ⟨hmem, _, _⟩
      · exact absurd hcontra (List.not_mem_nil _)
      · exact hmem
    unfold poll_offers2 at hmem2
    obtain ⟨o2, ho2, ho2e⟩ := List.mem_map.mp hmem2
    have hid2 : o2.tradeofferid = o.tradeofferid := by
      rw [← hpid, ← ho2e]
      exact (poll_offers2_id cfg env offers o2).symm
    have ho2o : o2 = o :=
      List.inj_on_of_nodup_map hnodup ho2 ho hid2
    subst ho2o
    have hnc : ¬ o2.tradeofferid ∈ cancelled_ids cfg env offers := by
      intro hc
      rw [cancelOk_of_mem_cancelled_ids cfg env offers o2.tradeofferid hc] at hok
      exact Bool.noConfusion hok
    rw [if_neg hnc] at ho2e
    rw [← ho2e]

/-- Witness for `c6_auto_cancel`: one qualifying, non-glitched offer whose
cancellation succeeds. -/
theorem c6_witness :
    ∃ pairs, (do_poll cfgC6 envC6W d0C6 PollType.Default).result = Except.ok pairs ∧
      (∀ o ∈ [oQualifying], qualifiesForCancel envC6W.now 10 o = true →
        o.tradeofferid ∈ (do_poll cfgC6 envC6W d0C6 PollType.Default).cancelIssued) ∧
      (∀ o ∈ [oQualifying], qualifiesForCancel envC6W.now 10 o = true →
        envC6W.cancelOk o.tradeofferid = true →
        o.glitched = false →
        (o.classes.all (fun c => (alookup ([] : ClassInfoMap) c).isSome)) = true →
        ¬ alookup d0C6.state_map o.tradeofferid = some TradeOfferState.Canceled →
        ∃ p ∈ pairs, p.1.tradeofferid = o.tradeofferid ∧
          p.1.trade_offer_state = TradeOfferState.Canceled) ∧
      (∀ o ∈ [oQualifying], envC6W.cancelOk o.tradeofferid = false →
        ∀ p ∈ pairs, p.1.tradeofferid = o.tradeofferid →
          p.1.trade_offer_state = o.trade_offer_state) :=
  c6_auto_cancel cfgC6 envC6W d0C6 PollType.Default [oQualifying] [] 10 rfl rfl (by decide)

/-- Counterexample to claim C6 as stated: a glitched offer that qualifies for
auto-cancel and whose cancellation succeeds is NOT reported in the cycle's
diff at all (the diff loop skips glitched offers after the cancellation step),
so "each offer whose cancellation succeeds is reported in that cycle's diff
with state Canceled" fails. -/
theorem c6_counterexample :
    qualifiesForCancel envC6.now 10 oGlitched = true ∧
    cancelled_ids cfgC6 envC6 [oGlitched] = [5] ∧
    (do_poll cfgC6 envC6 d0C6 PollType.Default).result = Except.ok [] := by
  refine ⟨by decide, by decide, ?_⟩
  rfl
